import Mathlib

/-!
Shallow embedding of the QuickMIDI playback core, together with proofs
checking the natural-language specification against the code.

Covered source files:
* `src/core/midi_block.py` (`MidiBlock`, `MidiMessageType`)
* `src/audio/midi_output_engine.py` (`MidiOutputEngine`)
* `src/core/playback_engine.py` (`PlaybackEngine`)
* `src/audio/audio_file.py` (`AudioFile`)
* `src/audio/audio_mixer.py` (`AudioMixer`)
* `src/audio/audio_engine.py` (`AudioEngine._audio_callback`)
* `src/core/song_structure.py` (`SongPart`, `SongStructure`)

Python floats are modelled as rationals (`ℚ`) wherever the code only adds,
compares and scales them, and as reals (`ℝ`) in the tempo-map module, whose
curve uses the real power `x ^ (0.52 : ℝ)`.
-/

/-! ### MIDI data model (`src/core/midi_block.py`) -/

/-- The `MidiMessageType` enum of `src/core/midi_block.py`. -/
inductive MidiMessageType where
  | PROGRAM_CHANGE
  | CONTROL_CHANGE
  | NOTE_ON
  | NOTE_OFF
  | KEMPER_RIG_CHANGE
  | VOICELIVE3_PRESET
  | QUAD_CORTEX_PRESET
  deriving DecidableEq, Repr

/-- The `MidiBlock` class of `src/core/midi_block.py`.  The field `idB`
models the Python object identity `id(block)` used by the dispatch
bookkeeping; distinct live blocks have distinct ids. -/
structure MidiBlock where
  idB : ℕ
  start_time : ℚ
  duration : ℚ
  message_type : MidiMessageType
  value1 : ℕ
  value2 : ℕ
  value3 : ℕ
  deriving DecidableEq, Repr

namespace MidiBlock

/-- `MidiBlock.set_quad_cortex_preset` (`src/core/midi_block.py`): sets the
message type and clamps bank to 0-15, preset to 0-127, scene to 0-7. -/
def set_quad_cortex_preset (b : MidiBlock) (bank preset scene : ℕ) : MidiBlock :=
  { b with
    message_type := MidiMessageType.QUAD_CORTEX_PRESET
    value1 := max 0 (min 15 bank)
    value2 := max 0 (min 127 preset)
    value3 := max 0 (min 7 scene) }

end MidiBlock

/-- An outbound MIDI message, a list of data bytes as built by the Python
code (e.g. `[0x90 + channel, note, velocity]`). -/
abbrev Msg := List ℕ

/-! ### Insertion-ordered dictionary

`MidiOutputEngine._active_notes` is a Python `dict` keyed by
`(channel, note)`.  Python dicts preserve insertion order and update a
present key in place, which the following association-list operations
mirror. -/

/-- Lookup in an insertion-ordered association list (Python `key in dict` /
`dict[key]`). -/
def dictLookup (l : List ((ℕ × ℕ) × ℕ)) (k : ℕ × ℕ) : Option ℕ :=
  match l with
  | [] => none
  | (k', v) :: rest => if k' = k then some v else dictLookup rest k

/-- Insertion into an insertion-ordered association list
(Python `dict[key] = value`). -/
def dictInsert (l : List ((ℕ × ℕ) × ℕ)) (k : ℕ × ℕ) (v : ℕ) :
    List ((ℕ × ℕ) × ℕ) :=
  match l with
  | [] => [(k, v)]
  | (k', v') :: rest =>
      if k' = k then (k, v) :: rest else (k', v') :: dictInsert rest k v

/-- Deletion from an insertion-ordered association list
(Python `del dict[key]`). -/
def dictErase (l : List ((ℕ × ℕ) × ℕ)) (k : ℕ × ℕ) : List ((ℕ × ℕ) × ℕ) :=
  match l with
  | [] => []
  | (k', v) :: rest => if k' = k then rest else (k', v) :: dictErase rest k

/-! ### `MidiOutputEngine` (`src/audio/midi_output_engine.py`)

The engine is modelled in its initialized state (`is_initialized()` true):
when uninitialized every method returns without sending anything, which the
claims about emitted messages do not exercise.  Sending a message is
modelled by returning it in an output list. -/

namespace MidiOutputEngine

/-- Dispatch state of `MidiOutputEngine`: `_triggered_blocks` and
`_active_notes`. -/
structure State where
  triggered_blocks : Finset ℕ
  active_notes : List ((ℕ × ℕ) × ℕ)
  deriving DecidableEq

/-- The fresh engine state built by `MidiOutputEngine.__init__`. -/
def initState : State := ⟨∅, []⟩

/-- Channel adjustment used by `process_block_start` / `process_block_end`:
`max(0, min(15, channel - 1))`.  The Python argument is an `int`; lane
channels are natural numbers, and on naturals the truncated `channel - 1`
agrees with the Python clamp. -/
def clampChannel (channel : ℕ) : ℕ := max 0 (min 15 (channel - 1))

/-- `MidiOutputEngine.process_block_start`: skips an already-triggered
block, otherwise emits the message(s) for the block's type, tracks a
NOTE_ON in `_active_notes`, and marks the block triggered.  A NOTE_OFF
typed block matches no branch, emits nothing, and is still marked
triggered (the final `add` runs for every type). -/
def process_block_start (s : State) (block : MidiBlock) (channel : ℕ) :
    State × List Msg :=
  if block.idB ∈ s.triggered_blocks then (s, [])
  else
    let mc := clampChannel channel
    let trig := insert block.idB s.triggered_blocks
    match block.message_type with
    | MidiMessageType.NOTE_ON =>
        (⟨trig, dictInsert s.active_notes (mc, block.value1) block.idB⟩,
          [[0x90 + mc, block.value1, block.value2]])
    | MidiMessageType.PROGRAM_CHANGE =>
        (⟨trig, s.active_notes⟩, [[0xC0 + mc, block.value1]])
    | MidiMessageType.CONTROL_CHANGE =>
        (⟨trig, s.active_notes⟩, [[0xB0 + mc, block.value1, block.value2]])
    | MidiMessageType.NOTE_OFF =>
        (⟨trig, s.active_notes⟩, [])
    | MidiMessageType.KEMPER_RIG_CHANGE =>
        (⟨trig, s.active_notes⟩,
          [[0xB0 + mc, 47, block.value1], [0xB0 + mc, 49 + block.value2, 1]])
    | MidiMessageType.VOICELIVE3_PRESET =>
        (⟨trig, s.active_notes⟩,
          [[0xB0 + mc, 32, block.value1], [0xC0 + mc, block.value2]])
    | MidiMessageType.QUAD_CORTEX_PRESET =>
        (⟨trig, s.active_notes⟩,
          [[0xB0 + mc, 0, block.value1], [0xC0 + mc, block.value2],
            [0xB0 + mc, 43, block.value3]])

/-- `MidiOutputEngine.process_block_end`: only NOTE_ON blocks get a note
off, and only when `(channel, note)` is still in `_active_notes`; the
entry is then deleted. -/
def process_block_end (s : State) (block : MidiBlock) (channel : ℕ) :
    State × List Msg :=
  if block.message_type ≠ MidiMessageType.NOTE_ON then (s, [])
  else
    let mc := clampChannel channel
    match dictLookup s.active_notes (mc, block.value1) with
    | some _ =>
        (⟨s.triggered_blocks, dictErase s.active_notes (mc, block.value1)⟩,
          [[0x80 + mc, block.value1, 0]])
    | none => (s, [])

/-- `MidiOutputEngine.reset_playback`: sends a note off for every active
note, then clears `_active_notes` and `_triggered_blocks`. -/
def reset_playback (s : State) : State × List Msg :=
  (initState, s.active_notes.map (fun e => [0x80 + e.1.1, e.1.2, 0]))

/-- `MidiOutputEngine.panic`: sends CC123 (all notes off), CC120 (all sound
off) and CC121 (reset all controllers), each with value 0, on all 16
channels, then clears `_active_notes` (but not `_triggered_blocks`). -/
def panic (s : State) : State × List Msg :=
  (⟨s.triggered_blocks, []⟩,
    (List.range 16).flatMap (fun c =>
      [[0xB0 + c, 123, 0], [0xB0 + c, 120, 0], [0xB0 + c, 121, 0]]))

end MidiOutputEngine

/-! ### `PlaybackEngine` (`src/core/playback_engine.py`)

Only MIDI lanes are modelled: `process_audio_lane` is a `pass` in the
source, so audio lanes contribute nothing to the scheduler's event
dispatch.  The attached `midi_output_engine` is modelled as present and
initialized.  The per-tick advancement `0.016 * bpm_factor` is taken as a
parameter of the tick operation, since the claims below hold for every
advancement value the code can compute. -/

/-- A `MidiLane` (`src/core/lane.py`) as seen by the scheduler: mute/solo
flags, MIDI channel (1-16) and its ordered blocks. -/
structure MidiLane where
  muted : Bool
  solo : Bool
  midi_channel : ℕ
  midi_blocks : List MidiBlock

namespace PlaybackEngine

/-- State of `PlaybackEngine` combined with its `MidiOutputEngine`. -/
structure State where
  current_position : ℚ
  is_playing : Bool
  triggered_midi_blocks : Finset ℕ
  ended_midi_blocks : Finset ℕ
  midiOut : MidiOutputEngine.State

/-- The state built by `PlaybackEngine.__init__` (with a fresh
`MidiOutputEngine`). -/
def initState : State := ⟨0, false, ∅, ∅, MidiOutputEngine.initState⟩

/-- The start check of the block loop in
`PlaybackEngine.process_midi_lane`: dispatch the block start when
`block.start_time <= position < block_end_time` and the block is not in
`_triggered_midi_blocks`. -/
def processBlockStartPhase (channel : ℕ) (acc : State × List Msg)
    (block : MidiBlock) : State × List Msg :=
  let s := acc.1
  if block.start_time ≤ s.current_position ∧
      s.current_position < block.start_time + block.duration then
    if block.idB ∉ s.triggered_midi_blocks then
      let r := MidiOutputEngine.process_block_start s.midiOut block channel
      ({ s with
          midiOut := r.1
          triggered_midi_blocks := insert block.idB s.triggered_midi_blocks },
        acc.2 ++ r.2)
    else acc
  else acc

/-- The end check of the block loop in `PlaybackEngine.process_midi_lane`:
dispatch the block end when `position >= block_end_time` and the block is
not in `_ended_midi_blocks`. -/
def processBlockEndPhase (channel : ℕ) (acc : State × List Msg)
    (block : MidiBlock) : State × List Msg :=
  let s1 := acc.1
  if s1.current_position ≥ block.start_time + block.duration ∧
      block.idB ∉ s1.ended_midi_blocks then
    let r := MidiOutputEngine.process_block_end s1.midiOut block channel
    ({ s1 with
        midiOut := r.1
        ended_midi_blocks := insert block.idB s1.ended_midi_blocks },
      acc.2 ++ r.2)
  else acc

/-- One iteration of the block loop in `PlaybackEngine.process_midi_lane`:
the start check runs before the end check, both against the same tick
position. -/
def processBlock (channel : ℕ) (acc : State × List Msg) (block : MidiBlock) :
    State × List Msg :=
  processBlockEndPhase channel (processBlockStartPhase channel acc block) block

/-- `PlaybackEngine.process_midi_lane`: skips a muted lane, otherwise runs
the block loop on the lane's channel. -/
def process_midi_lane (acc : State × List Msg) (lane : MidiLane) :
    State × List Msg :=
  if lane.muted then acc
  else lane.midi_blocks.foldl (processBlock lane.midi_channel) acc

/-- `PlaybackEngine.process_lane_events`: if any lane is soloed, only
soloed lanes are processed. -/
def process_lane_events (lanes : List MidiLane) (s : State) :
    State × List Msg :=
  let any_solo := lanes.any (·.solo)
  lanes.foldl
    (fun acc lane =>
      if any_solo ∧ ¬lane.solo then acc else process_midi_lane acc lane)
    (s, [])

/-- `PlaybackEngine.update_playback` (one timer tick): when playing,
advance the position by `adv` (in the code, `0.016 * current_bpm / 120`)
and process lane events at the new position. -/
def update_playback (lanes : List MidiLane) (adv : ℚ) (s : State) :
    State × List Msg :=
  if s.is_playing then
    process_lane_events lanes
      { s with current_position := s.current_position + adv }
  else (s, [])

/-- `PlaybackEngine.play`: a no-op when already playing. -/
def play (s : State) : State × List Msg :=
  if s.is_playing then (s, []) else ({ s with is_playing := true }, [])

/-- `PlaybackEngine.halt`: pauses, preserving the position. -/
def halt (s : State) : State × List Msg :=
  if s.is_playing then ({ s with is_playing := false }, []) else (s, [])

/-- `PlaybackEngine.set_position`: clamps the position to be nonnegative,
resets the MIDI engine (note offs for all active notes) and clears both
tracking sets. -/
def set_position (p : ℚ) (s : State) : State × List Msg :=
  let r := MidiOutputEngine.reset_playback s.midiOut
  (⟨max 0 p, s.is_playing, ∅, ∅, r.1⟩, r.2)

/-- `PlaybackEngine.stop`: stops, resets the MIDI engine, clears the
tracking sets and seeks to 0 (`set_position 0.0` resets once more; the
second reset finds no active notes). -/
def stop (s : State) : State × List Msg :=
  let r := MidiOutputEngine.reset_playback s.midiOut
  let s1 : State := ⟨s.current_position, false, ∅, ∅, r.1⟩
  let r2 := set_position 0 s1
  (r2.1, r.2 ++ r2.2)

/-- Transport operations the claims quantify over: the timer tick plus the
`play` / `halt` / `stop` / `set_position` entry points. -/
inductive Op where
  | play
  | halt
  | stop
  | seek (p : ℚ)
  | tick (adv : ℚ)

/-- One operation applied to the combined scheduler/dispatcher state. -/
def step (lanes : List MidiLane) (op : Op) (s : State) : State × List Msg :=
  match op with
  | Op.play => play s
  | Op.halt => halt s
  | Op.stop => stop s
  | Op.seek p => set_position p s
  | Op.tick adv => update_playback lanes adv s

/-- Run a sequence of operations, accumulating all emitted MIDI messages. -/
def runOps (lanes : List MidiLane) : List Op → State → State × List Msg
  | [], s => (s, [])
  | op :: ops, s =>
      let r := step lanes op s
      let r' := runOps lanes ops r.1
      (r'.1, r.2 ++ r'.2)

end PlaybackEngine

/-! ### `AudioFile` (`src/audio/audio_file.py`)

Sample data is modelled as a function from frame index to a stereo sample
pair; only the cursor arithmetic and the shape of the returned chunk
matter to the claims.  Sample values are rationals. -/

/-- A loaded (or empty) `AudioFile`: `_is_loaded`, `frames`,
`current_frame`, and the audio data. -/
structure AudioFile where
  is_loaded : Bool
  frames : ℕ
  data : ℕ → ℚ × ℚ
  current_frame : ℕ

namespace AudioFile

/-- `AudioFile.read_frames` (without the optional `start_frame` argument,
which the mixer never passes): returns silence when unloaded or past the
end of file, otherwise reads `min(frame_count, available)` frames starting
at the cursor, advances the cursor, and zero-pads to `frame_count`. -/
def read_frames (f : AudioFile) (frame_count : ℕ) :
    AudioFile × List (ℚ × ℚ) :=
  if ¬f.is_loaded then (f, List.replicate frame_count (0, 0))
  else
    -- available = self.frames - self.current_frame; `available <= 0`
    -- on integers is `frames ≤ current_frame` on naturals.
    if f.frames ≤ f.current_frame then (f, List.replicate frame_count (0, 0))
    else
      let frames_to_read := min frame_count (f.frames - f.current_frame)
      let end_frame := f.current_frame + frames_to_read
      let chunk := (List.range frames_to_read).map
        (fun i => f.data (f.current_frame + i))
      ({ f with current_frame := end_frame },
        chunk ++ List.replicate (frame_count - frames_to_read) (0, 0))

/-- `AudioFile.seek`: returns `false` when not loaded, otherwise clamps the
(possibly negative) target frame into `[0, frames]` and returns `true`. -/
def seek (f : AudioFile) (frame_number : ℤ) : AudioFile × Bool :=
  if ¬f.is_loaded then (f, false)
  else
    ({ f with current_frame := (max 0 (min frame_number (f.frames : ℤ))).toNat },
      true)

end AudioFile

/-! ### `AudioMixer` (`src/audio/audio_mixer.py`) -/

/-- `AudioLaneState`: the mixer-owned per-lane runtime state. -/
structure AudioLaneState where
  lane_id : ℕ
  audio_file : AudioFile
  volume : ℚ
  muted : Bool
  solo : Bool
  enabled : Bool

/-- Pointwise sum of two stereo buffers (`output += frames`). -/
def addFrames (a b : List (ℚ × ℚ)) : List (ℚ × ℚ) :=
  List.zipWith (fun x y => (x.1 + y.1, x.2 + y.2)) a b

/-- One stereo sample clipped to `[-1, 1]` (`np.clip(output, -1.0, 1.0)`). -/
def clipSample (x : ℚ × ℚ) : ℚ × ℚ :=
  (max (-1) (min 1 x.1), max (-1) (min 1 x.2))

namespace AudioMixer

/-- Mixer state: the lane table (a Python dict in insertion order, modelled
as a list) and the cached `_has_solo_lanes` flag. -/
structure State where
  lanes : List AudioLaneState
  has_solo_lanes : Bool

/-- One iteration of the lane loop in `AudioMixer.mix_frames`: a disabled
or unloaded lane is skipped without touching its reader; a muted lane, or
a non-soloed lane while some lane is soloed, advances its reader and
contributes nothing; otherwise the lane's frames are volume-scaled and
contributed. -/
def mixStep (has_solo_lanes : Bool) (frame_count : ℕ)
    (ls : AudioLaneState) : AudioLaneState × Option (List (ℚ × ℚ)) :=
  if ¬ls.enabled ∨ ¬ls.audio_file.is_loaded then (ls, none)
  else if ls.muted then
    ({ ls with audio_file := (ls.audio_file.read_frames frame_count).1 }, none)
  else if has_solo_lanes ∧ ¬ls.solo then
    ({ ls with audio_file := (ls.audio_file.read_frames frame_count).1 }, none)
  else
    let r := ls.audio_file.read_frames frame_count
    let frames := if ls.volume ≠ 1 then
        r.2.map (fun x => (x.1 * ls.volume, x.2 * ls.volume))
      else r.2
    ({ ls with audio_file := r.1 }, some frames)

/-- The lane loop of `AudioMixer.mix_frames`, threading the output buffer
and the `has_audio` flag in source order: a contributing lane adds its
frames into the output and sets `has_audio = True`. -/
def mixLoop (has_solo_lanes : Bool) (frame_count : ℕ) :
    List AudioLaneState → List (ℚ × ℚ) → Bool →
      List AudioLaneState × List (ℚ × ℚ) × Bool
  | [], out, has_audio => ([], out, has_audio)
  | ls :: rest, out, has_audio =>
      match mixStep has_solo_lanes frame_count ls with
      | (ls', none) =>
          let r := mixLoop has_solo_lanes frame_count rest out has_audio
          (ls' :: r.1, r.2)
      | (ls', some frames) =>
          let r := mixLoop has_solo_lanes frame_count rest
            (addFrames out frames) true
          (ls' :: r.1, r.2)

/-- `AudioMixer.mix_frames`: zero output buffer, early return when the lane
table is empty, the lane loop, and the final clip applied only when some
lane contributed audio. -/
def mix_frames (m : State) (frame_count : ℕ) : State × List (ℚ × ℚ) :=
  let output := List.replicate frame_count ((0 : ℚ), (0 : ℚ))
  if m.lanes.isEmpty then (m, output)
  else
    let r := mixLoop m.has_solo_lanes frame_count m.lanes output false
    (⟨r.1, m.has_solo_lanes⟩,
      if r.2.2 then r.2.1.map clipSample else r.2.1)

end AudioMixer

/-! ### `AudioEngine._audio_callback` (`src/audio/audio_engine.py`)

Only the frame counter, seek and playing logic matter to the claims; the
mixer's audio output is not tracked here.  A position callback is modelled
as registered, and a mixer as set.  A report is the float position
`current_frame / sample_rate` in seconds. -/

namespace AudioEngine

/-- Shared state touched by `AudioEngine._audio_callback`. -/
structure State where
  current_frame : ℕ
  is_playing : Bool
  seek_pending : Bool
  seek_target_frame : ℕ

/-- One invocation of `_audio_callback` with `frame_count` frames: apply a
pending seek, return silence (and no report) when not playing, otherwise
advance `_current_frame` by `frame_count` and report the position exactly
when the new counter value is divisible by the hard-coded 4410. -/
def audio_callback (sample_rate : ℕ) (s : State) (frame_count : ℕ) :
    State × List ℚ :=
  let s1 := if s.seek_pending then
      { s with current_frame := s.seek_target_frame, seek_pending := false }
    else s
  if ¬s1.is_playing then (s1, [])
  else
    let s2 := { s1 with current_frame := s1.current_frame + frame_count }
    if s2.current_frame % 4410 = 0 then
      (s2, [(s2.current_frame : ℚ) / (sample_rate : ℚ)])
    else (s2, [])

/-- Run `n` consecutive callbacks of `frame_count` frames each, collecting
all position reports. -/
def runCallbacks (sample_rate : ℕ) (s : State) (frame_count : ℕ) :
    ℕ → State × List ℚ
  | 0 => (s, [])
  | n + 1 =>
      let r := audio_callback sample_rate s frame_count
      let r' := runCallbacks sample_rate r.1 frame_count n
      (r'.1, r.2 ++ r'.2)

end AudioEngine

/-! ### `SongStructure` (`src/core/song_structure.py`)

BPM values and times are reals; the gradual-transition curve is the real
power `x ^ (0.52 : ℝ)`.  The `signature` string `"n/m"` is modelled
already parsed into its numerator and denominator, which is all
`get_beats_per_bar` extracts from it.  The `transition` field stays a
string, because `calculate_part_duration` branches on the strings
`"instant"` / `"gradual"` and raises on anything else (modelled as
`none`), while `get_bpm_at_time` treats every non-`"instant"` transition
as gradual. -/

/-- The `SongPart` dataclass of `src/core/song_structure.py`. -/
structure SongPart where
  name : String
  sigNum : ℕ
  sigDen : ℕ
  bpm : ℝ
  num_bars : ℕ
  transition : String
  color : String
  start_time : ℝ
  duration : ℝ

namespace SongPart

/-- `SongPart.get_beats_per_bar`: `(numerator * 4) / denominator` under
Python float division. -/
noncomputable def get_beats_per_bar (p : SongPart) : ℝ :=
  ((p.sigNum : ℝ) * 4) / (p.sigDen : ℝ)

/-- `SongPart.get_total_beats`: `num_bars * get_beats_per_bar()`. -/
noncomputable def get_total_beats (p : SongPart) : ℝ :=
  (p.num_bars : ℝ) * p.get_beats_per_bar

end SongPart

/-- The `SongStructure` class: the part list and the default BPM. -/
structure SongStructure where
  parts : List SongPart
  default_bpm : ℝ

namespace SongStructure

/-- `SongStructure.calculate_gradual_transition_duration`: sums, over each
bar, `beats_per_bar * (60 / bpm(bar))` with
`bpm(bar) = start_bpm + (part.bpm - start_bpm) * (bar / num_bars) ** 0.52`. -/
noncomputable def calculate_gradual_transition_duration
    (part : SongPart) (start_bpm : ℝ) : ℝ :=
  ((List.range part.num_bars).map (fun (bar : ℕ) =>
    let current_progress := ((bar : ℝ) / (part.num_bars : ℝ)) ^ (0.52 : ℝ)
    let current_bpm := start_bpm + (part.bpm - start_bpm) * current_progress
    part.get_beats_per_bar * (60 / current_bpm))).sum

/-- `SongStructure.calculate_part_duration`: the instant branch is taken
when the transition is `"instant"` or there is no previous BPM; the
gradual branch when the transition is `"gradual"`; any other transition
string raises `ValueError`, modelled as `none`. -/
noncomputable def calculate_part_duration
    (part : SongPart) (previous_bpm : Option ℝ) : Option ℝ :=
  match previous_bpm with
  | none =>
      some ((part.num_bars : ℝ) * part.get_beats_per_bar * (60 / part.bpm))
  | some pb =>
      if part.transition = "instant" then
        some ((part.num_bars : ℝ) * part.get_beats_per_bar * (60 / part.bpm))
      else if part.transition = "gradual" then
        some (calculate_gradual_transition_duration part pb)
      else none

/-- A row of the structure CSV, as consumed by
`SongStructure.load_from_csv` after parsing. -/
structure Row where
  name : String
  sigNum : ℕ
  sigDen : ℕ
  bpm : ℝ
  num_bars : ℕ
  transition : String
  color : String

/-- The accumulation loop of `SongStructure.load_from_csv`: each part's
`start_time` is the running `current_time`, its duration comes from
`calculate_part_duration` with the previous row's BPM, and any duration
error fails the whole load. -/
noncomputable def loadRowsAux :
    List Row → ℝ → Option ℝ → Option (List SongPart)
  | [], _, _ => some []
  | r :: rest, current_time, previous_bpm =>
      let part0 : SongPart :=
        ⟨r.name, r.sigNum, r.sigDen, r.bpm, r.num_bars, r.transition,
          r.color, current_time, 0⟩
      match calculate_part_duration part0 previous_bpm with
      | none => none
      | some d =>
          (loadRowsAux rest (current_time + d) (some r.bpm)).map
            (fun ps => { part0 with duration := d } :: ps)

/-- `SongStructure.load_from_csv` restricted to its data flow: build the
part list from the parsed rows. -/
noncomputable def load_rows (rows : List Row) : Option (List SongPart) :=
  loadRowsAux rows 0 none

/-- Containment test of `SongStructure.get_part_at_time`:
`part.start_time <= time < part.start_time + part.duration`. -/
def containsTime (time : ℝ) (p : SongPart) : Prop :=
  p.start_time ≤ time ∧ time < p.start_time + p.duration

/-- Containment is a proposition on reals; the branch in
`get_part_at_time` is classical. -/
noncomputable instance (time : ℝ) (p : SongPart) :
    Decidable (containsTime time p) :=
  Classical.propDecidable _

/-- First index whose part contains `time`.
`SongStructure.get_part_at_time` returns the first matching part object;
`get_bpm_at_time` then recovers its index with `parts.index(part)`, which
finds the first part equal to it — the same index, since any earlier
part with equal fields would itself contain `time`. -/
noncomputable def findPartIdx (time : ℝ) : List SongPart → ℕ → Option ℕ
  | [], _ => none
  | p :: rest, i =>
      if containsTime time p then some i else findPartIdx time rest (i + 1)

/-- `SongStructure.get_part_at_time`, returning the index of the first
part containing `time` (or `none`). -/
noncomputable def get_part_at_time (sc : SongStructure) (time : ℝ) :
    Option ℕ :=
  findPartIdx time sc.parts 0

/-- A fallback part for total indexing (never reached on the indices
`get_part_at_time` returns). -/
def defaultPart : SongPart := ⟨"", 4, 4, 120, 0, "instant", "", 0, 0⟩

/-- `SongStructure.get_bpm_at_time`: `default_bpm` when no part contains
`time`; the part's own `bpm` for an instant transition; otherwise the
previous part's BPM interpolated towards this part's BPM along
`clamp((time - start) / duration, 0, 1) ** 0.52`. -/
noncomputable def get_bpm_at_time (sc : SongStructure) (time : ℝ) : ℝ :=
  match get_part_at_time sc time with
  | none => sc.default_bpm
  | some i =>
      let part := sc.parts.getD i defaultPart
      if part.transition = "instant" then part.bpm
      else
        let previous_bpm :=
          if 0 < i then (sc.parts.getD (i - 1) defaultPart).bpm else part.bpm
        let time_in_part := time - part.start_time
        let progress := min 1 (max 0 (time_in_part / part.duration))
        let curved_progress := progress ^ (0.52 : ℝ)
        previous_bpm + (part.bpm - previous_bpm) * curved_progress

/-- `SongStructure.get_total_duration`: 0 without parts, otherwise the last
part's end. -/
noncomputable def get_total_duration (sc : SongStructure) : ℝ :=
  match sc.parts.getLast? with
  | none => 0
  | some last => last.start_time + last.duration

end SongStructure

/-- Modelled from the spec: part duration for a gradual transition is "the
sum, over each bar, of `beats_per_bar * 60 / bpm(bar)` where
`bpm(bar) = start_bpm + (end_bpm - start_bpm) * (bar/bar_count)**0.52`",
with `start_bpm` the previous part's BPM and `end_bpm` this part's BPM. -/
noncomputable def specGradualDuration
    (beats_per_bar start_bpm end_bpm : ℝ) (bar_count : ℕ) : ℝ :=
  ∑ bar ∈ Finset.range bar_count,
    beats_per_bar * 60 /
      (start_bpm + (end_bpm - start_bpm) *
        ((bar : ℝ) / (bar_count : ℝ)) ^ (0.52 : ℝ))

/-! ### Claim C7: Quad-Cortex preset dispatch -/

/-- Claim C7: dispatching the start of a Quad-Cortex-preset block with
bank=2, preset=5, scene=3 sends exactly three MIDI messages, in order
`[0xB0|ch, 0, 2]`, `[0xC0|ch, 5]`, `[0xB0|ch, 43, 3]` (with `ch` the
0-indexed channel the code derives from the lane channel), and nothing
else. -/
theorem c7_quad_cortex_dispatch (b0 : MidiBlock) (s : MidiOutputEngine.State)
    (channel : ℕ) (h : b0.idB ∉ s.triggered_blocks) :
    (MidiOutputEngine.process_block_start s
        (b0.set_quad_cortex_preset 2 5 3) channel).2 =
      [[0xB0 + MidiOutputEngine.clampChannel channel, 0, 2],
        [0xC0 + MidiOutputEngine.clampChannel channel, 5],
        [0xB0 + MidiOutputEngine.clampChannel channel, 43, 3]] := by
  simp [MidiOutputEngine.process_block_start, MidiBlock.set_quad_cortex_preset,
    h]

/-- Concrete instance of `c7_quad_cortex_dispatch`: a fresh engine, a fresh
block, lane channel 3. -/
theorem c7_quad_cortex_dispatch_witness :
    (MidiOutputEngine.process_block_start MidiOutputEngine.initState
        ((⟨0, 0, 1, MidiMessageType.CONTROL_CHANGE, 0, 127, 0⟩ :
          MidiBlock).set_quad_cortex_preset 2 5 3) 3).2 =
      [[0xB0 + 2, 0, 2], [0xC0 + 2, 5], [0xB0 + 2, 43, 3]] :=
  c7_quad_cortex_dispatch ⟨0, 0, 1, MidiMessageType.CONTROL_CHANGE, 0, 127, 0⟩
    MidiOutputEngine.initState 3 (by simp [MidiOutputEngine.initState])

/-! ### Claim C8: panic -/

/-- Claim C8: `panic()` sends exactly 48 messages — for each of the 16
channels CC123, CC120 and CC121, each with value 0 — regardless of the
prior dispatch state. -/
theorem c8_panic_messages (s : MidiOutputEngine.State) :
    (MidiOutputEngine.panic s).2.length = 48 ∧
      ∀ c < 16,
        [0xB0 + c, 123, 0] ∈ (MidiOutputEngine.panic s).2 ∧
          [0xB0 + c, 120, 0] ∈ (MidiOutputEngine.panic s).2 ∧
            [0xB0 + c, 121, 0] ∈ (MidiOutputEngine.panic s).2 := by
  have hmsgs : (MidiOutputEngine.panic s).2 =
      (List.range 16).flatMap (fun c =>
        [[0xB0 + c, 123, 0], [0xB0 + c, 120, 0], [0xB0 + c, 121, 0]]) := rfl
  rw [hmsgs]
  refine ⟨by decide, ?_⟩
  intro c hc
  interval_cases c <;> exact ⟨by decide, by decide, by decide⟩

/-- Concrete instance of `c8_panic_messages` at channel 0 on a fresh
engine. -/
theorem c8_panic_messages_witness :
    (0 : ℕ) < 16 ∧
      [0xB0, 123, 0] ∈ (MidiOutputEngine.panic MidiOutputEngine.initState).2 :=
  ⟨by decide,
    by
      have h := (c8_panic_messages MidiOutputEngine.initState).2 0 (by decide)
      simpa using h.1⟩

/-! ### Claim C9: seek clamping and past-end reads -/

/-- Claim C9: for a loaded audio file, `seek` to any (possibly negative or
past-end) frame returns normally with the cursor clamped into
`[0, frames]`; and a read with the cursor at or past the end of file
returns `frame_count` frames of silence, leaving the file unchanged. -/
theorem c9_seek_clamps_reads_pad :
    (∀ (f : AudioFile) (n : ℤ), f.is_loaded = true →
      (f.seek n).2 = true ∧
        ((f.seek n).1.current_frame : ℤ) = max 0 (min n (f.frames : ℤ)) ∧
          (f.seek n).1.current_frame ≤ f.frames) ∧
      ∀ (f : AudioFile) (fc : ℕ), f.frames ≤ f.current_frame →
        (f.read_frames fc).2 = List.replicate fc (0, 0) ∧
          (f.read_frames fc).1 = f := by
  constructor
  · intro f n hf
    have hs : f.seek n =
        ({ f with current_frame := (max 0 (min n (f.frames : ℤ))).toNat },
          true) := by
      rw [AudioFile.seek]
      simp [hf]
    rw [hs]
    refine ⟨rfl, Int.toNat_of_nonneg (le_max_left 0 _), ?_⟩
    have h1 : max 0 (min n (f.frames : ℤ)) ≤ (f.frames : ℤ) :=
      max_le (Int.ofNat_nonneg _) (min_le_right _ _)
    show (max 0 (min n (f.frames : ℤ))).toNat ≤ f.frames
    omega
  · intro f fc hf
    rw [AudioFile.read_frames]
    by_cases hl : f.is_loaded
    · simp [hl, hf]
    · simp [hl]

/-- Concrete instance of `c9_seek_clamps_reads_pad`: a 10-frame loaded
file; seek to 99 clamps to 10, a read at the end returns 4 frames of
silence. -/
theorem c9_seek_clamps_reads_pad_witness :
    ((AudioFile.mk true 10 (fun _ => (0, 0)) 3).seek 99).1.current_frame ≤ 10 ∧
      ((AudioFile.mk true 10 (fun _ => (0, 0)) 10).read_frames 4).2 =
        List.replicate 4 (0, 0) :=
  ⟨(c9_seek_clamps_reads_pad.1 (AudioFile.mk true 10 (fun _ => (0, 0)) 3) 99
      rfl).2.2,
    (c9_seek_clamps_reads_pad.2 (AudioFile.mk true 10 (fun _ => (0, 0)) 10) 4
      (by norm_num)).1⟩

/-! ### Claim C5: position reporting rate of the audio callback -/

/-- Claim C5 fails on the code: with the constructor-default buffer size
1024 and playback started at frame 0, the first ten callbacks render
10240 frames — more than two full `sample_rate/10 = 4410` frame windows —
yet fire no position report at all, because the code reports only when the
cumulative frame counter is exactly divisible by the hard-coded 4410
(`1024 * k % 4410 ≠ 0` for `k = 1..10`). -/
theorem c5_callback_reports_starved :
    (AudioEngine.runCallbacks 44100 ⟨0, true, false, 0⟩ 1024 10).2 = [] ∧
      (AudioEngine.runCallbacks 44100 ⟨0, true, false, 0⟩ 1024 10).1.current_frame
        = 10240 := by
  constructor <;> rfl

/-! ### Claim C6: uniform reader advance and audibility -/

/-- How the claim says a lane's reader moves on one render: an enabled,
loaded lane advances its cursor by exactly
`min frame_count (frames remaining)`; other lanes are untouched. -/
def laneAdvanced (fc : ℕ) (ls : AudioLaneState) : AudioLaneState :=
  if ls.enabled ∧ ls.audio_file.is_loaded then
    let f := ls.audio_file
    { ls with audio_file :=
        { f with current_frame := f.current_frame + min fc (f.frames - f.current_frame) } }
  else ls

/-- A lane is audible on a render exactly when it is enabled, loaded, not
muted, and not suppressed by another lane's solo. -/
def audibleB (has_solo_lanes : Bool) (ls : AudioLaneState) : Bool :=
  ls.enabled && ls.audio_file.is_loaded && !ls.muted &&
    !(has_solo_lanes && !ls.solo)

theorem AudioFile.read_frames_fst (f : AudioFile) (fc : ℕ) :
    (f.read_frames fc).1 =
      if f.is_loaded then
        { f with current_frame :=
            f.current_frame + min fc (f.frames - f.current_frame) }
      else f := by
  obtain ⟨lo, fr, da, cf⟩ := f
  rw [AudioFile.read_frames]
  cases lo with
  | false => simp
  | true =>
      by_cases he : fr ≤ cf
      · have h0 : fr - cf = 0 := Nat.sub_eq_zero_of_le he
        simp [he, h0]
      · simp [he]

theorem AudioMixer.mixStep_fst (hs : Bool) (fc : ℕ) (ls : AudioLaneState) :
    (AudioMixer.mixStep hs fc ls).1 = laneAdvanced fc ls := by
  obtain ⟨lid, af, vol, mu, sol, en⟩ := ls
  have hread := AudioFile.read_frames_fst af fc
  cases en <;> cases mu <;> cases sol <;> cases hs <;>
    cases haf : af.is_loaded <;>
      simp_all [AudioMixer.mixStep, laneAdvanced]

theorem AudioMixer.mixStep_none (hs : Bool) (fc : ℕ) (ls : AudioLaneState)
    (h : audibleB hs ls = false) :
    (AudioMixer.mixStep hs fc ls).2 = none := by
  obtain ⟨lid, af, vol, mu, sol, en⟩ := ls
  cases en <;> cases mu <;> cases sol <;> cases hs <;>
    cases haf : af.is_loaded <;>
      simp_all [AudioMixer.mixStep, audibleB]

theorem AudioMixer.mixLoop_fst (hs : Bool) (fc : ℕ)
    (lanes : List AudioLaneState) (out : List (ℚ × ℚ)) (ha : Bool) :
    (AudioMixer.mixLoop hs fc lanes out ha).1 =
      lanes.map (laneAdvanced fc) := by
  induction lanes generalizing out ha with
  | nil => rfl
  | cons ls rest ih =>
      rcases hstep : AudioMixer.mixStep hs fc ls with ⟨ls', contrib⟩
      have hfst : ls' = laneAdvanced fc ls := by
        have h2 := AudioMixer.mixStep_fst hs fc ls
        rw [hstep] at h2
        exact h2
      cases contrib with
      | none => simp [AudioMixer.mixLoop, hstep, hfst, ih]
      | some frames => simp [AudioMixer.mixLoop, hstep, hfst, ih]

theorem AudioMixer.mixLoop_out_filter (hs : Bool) (fc : ℕ)
    (lanes : List AudioLaneState) (out : List (ℚ × ℚ)) (ha : Bool) :
    (AudioMixer.mixLoop hs fc lanes out ha).2 =
      (AudioMixer.mixLoop hs fc (lanes.filter (audibleB hs)) out ha).2 := by
  induction lanes generalizing out ha with
  | nil => rfl
  | cons ls rest ih =>
      by_cases hA : audibleB hs ls = true
      · rw [List.filter_cons_of_pos hA]
        rcases hstep : AudioMixer.mixStep hs fc ls with ⟨ls', contrib⟩
        cases contrib with
        | none => simp [AudioMixer.mixLoop, hstep, ih]
        | some frames => simp [AudioMixer.mixLoop, hstep, ih]
      · rw [List.filter_cons_of_neg hA]
        have hnone := AudioMixer.mixStep_none hs fc ls
          (Bool.eq_false_iff.mpr hA)
        rcases hstep : AudioMixer.mixStep hs fc ls with ⟨ls', contrib⟩
        rw [hstep] at hnone
        subst hnone
        simp [AudioMixer.mixLoop, hstep, ih]

theorem AudioMixer.mix_frames_snd (m : AudioMixer.State) (fc : ℕ)
    (h : m.lanes.isEmpty = false) :
    (AudioMixer.mix_frames m fc).2 =
      (if (AudioMixer.mixLoop m.has_solo_lanes fc m.lanes
            (List.replicate fc ((0 : ℚ), (0 : ℚ))) false).2.2 then
        (AudioMixer.mixLoop m.has_solo_lanes fc m.lanes
          (List.replicate fc ((0 : ℚ), (0 : ℚ))) false).2.1.map clipSample
      else
        (AudioMixer.mixLoop m.has_solo_lanes fc m.lanes
          (List.replicate fc ((0 : ℚ), (0 : ℚ))) false).2.1) := by
  rw [AudioMixer.mix_frames]
  simp only [h, Bool.false_eq_true, if_false]

theorem AudioMixer.mix_frames_fst_lanes (m : AudioMixer.State) (fc : ℕ) :
    (AudioMixer.mix_frames m fc).1.lanes = m.lanes.map (laneAdvanced fc) := by
  rw [AudioMixer.mix_frames]
  by_cases h : m.lanes.isEmpty
  · have hnil : m.lanes = [] := List.isEmpty_iff.mp h
    simp [hnil]
  · simp only [Bool.not_eq_true] at h
    simp only [h, Bool.false_eq_true, if_false]
    exact AudioMixer.mixLoop_fst _ _ _ _ _

/-- Claim C6: on every render of `frame_count` frames, every enabled lane
with a loaded file advances its reader by exactly
`min frame_count (frames remaining)` — uniformly, whether the lane is
muted, suppressed by solo, or audible — and the mixed output is exactly
what the audible lanes alone would produce (muted and non-soloed lanes
contribute nothing). -/
theorem c6_mix_advances_uniformly (m : AudioMixer.State) (fc : ℕ) :
    (AudioMixer.mix_frames m fc).1.lanes = m.lanes.map (laneAdvanced fc) ∧
      (AudioMixer.mix_frames m fc).2 =
        (AudioMixer.mix_frames
          ⟨m.lanes.filter (audibleB m.has_solo_lanes), m.has_solo_lanes⟩
          fc).2 := by
  refine ⟨AudioMixer.mix_frames_fst_lanes m fc, ?_⟩
  by_cases h0 : m.lanes.isEmpty
  · have hnil : m.lanes = [] := List.isEmpty_iff.mp h0
    simp [AudioMixer.mix_frames, hnil]
  · simp only [Bool.not_eq_true] at h0
    have key := AudioMixer.mixLoop_out_filter m.has_solo_lanes fc m.lanes
      (List.replicate fc ((0 : ℚ), (0 : ℚ))) false
    rw [AudioMixer.mix_frames_snd m fc h0]
    by_cases h1 : (m.lanes.filter (audibleB m.has_solo_lanes)).isEmpty
    · have hfil : m.lanes.filter (audibleB m.has_solo_lanes) = [] :=
        List.isEmpty_iff.mp h1
      rw [hfil] at key
      simp only [AudioMixer.mixLoop] at key
      rw [key]
      have hr : (AudioMixer.mix_frames
          ⟨m.lanes.filter (audibleB m.has_solo_lanes), m.has_solo_lanes⟩
          fc).2 = List.replicate fc ((0 : ℚ), (0 : ℚ)) := by
        rw [hfil]
        rfl
      rw [hr]
      simp
    · simp only [Bool.not_eq_true] at h1
      have hsnd := AudioMixer.mix_frames_snd
        ⟨m.lanes.filter (audibleB m.has_solo_lanes), m.has_solo_lanes⟩ fc h1
      rw [hsnd, key]

/-! ### Claim C4: the gradual-transition duration formula -/

theorem list_range_map_sum (f : ℕ → ℝ) (n : ℕ) :
    ((List.range n).map f).sum = ∑ i ∈ Finset.range n, f i := by
  induction n with
  | zero => simp
  | succ n ih =>
      rw [List.range_succ, List.map_append, List.sum_append,
        Finset.sum_range_succ, ih]
      simp

theorem gradual_ne_instant : ("gradual" : String) ≠ "instant" := by decide

theorem calculate_gradual_eq_spec (part : SongPart) (start_bpm : ℝ) :
    SongStructure.calculate_gradual_transition_duration part start_bpm =
      specGradualDuration part.get_beats_per_bar start_bpm part.bpm
        part.num_bars := by
  rw [SongStructure.calculate_gradual_transition_duration, specGradualDuration,
    list_range_map_sum]
  apply Finset.sum_congr rfl
  intro bar _
  show part.get_beats_per_bar *
      (60 / (start_bpm + (part.bpm - start_bpm) *
        ((bar : ℝ) / (part.num_bars : ℝ)) ^ (0.52 : ℝ))) = _
  rw [mul_div_assoc]

/-- Claim C4: for a gradual-transition part with a preceding part (previous
BPM `pb`), the computed part duration is the sum over
`bar = 0 .. bar_count-1` of `beats_per_bar * 60 / bpm(bar)` with
`bpm(bar) = pb + (part.bpm - pb) * (bar/bar_count) ** 0.52`. -/
theorem c4_gradual_duration_formula (part : SongPart) (pb : ℝ)
    (h : part.transition = "gradual") :
    SongStructure.calculate_part_duration part (some pb) =
      some (specGradualDuration part.get_beats_per_bar pb part.bpm
        part.num_bars) := by
  have hne : part.transition ≠ "instant" := by
    rw [h]
    exact gradual_ne_instant
  rw [SongStructure.calculate_part_duration]
  rw [if_neg hne, if_pos h, calculate_gradual_eq_spec]

/-- Concrete instance of `c4_gradual_duration_formula`: a one-bar 4/4
gradual part from 120 to 140 BPM. -/
theorem c4_gradual_duration_formula_witness :
    SongStructure.calculate_part_duration
        ⟨"W", 4, 4, 140, 1, "gradual", "red", 0, 0⟩ (some 120) =
      some (specGradualDuration
        (SongPart.get_beats_per_bar ⟨"W", 4, 4, 140, 1, "gradual", "red", 0, 0⟩)
        120 140 1) :=
  c4_gradual_duration_formula ⟨"W", 4, 4, 140, 1, "gradual", "red", 0, 0⟩ 120 rfl

/-! ### Claim C2: the A/B/C tempo-map scenario -/

/-- Positivity of the gradual-transition duration for an upward ramp. -/
theorem calculate_gradual_pos (part : SongPart) (sb : ℝ)
    (hsb : 0 < sb) (hle : sb ≤ part.bpm) (hnum : 0 < part.sigNum)
    (hden : 0 < part.sigDen) (hbars : 0 < part.num_bars) :
    0 < SongStructure.calculate_gradual_transition_duration part sb := by
  rw [calculate_gradual_eq_spec, specGradualDuration]
  apply Finset.sum_pos
  · intro bar _
    have hx : (0 : ℝ) ≤ ((bar : ℝ) / ((part.num_bars : ℕ) : ℝ)) ^ (0.52 : ℝ) :=
      Real.rpow_nonneg (by positivity) _
    have hcb : 0 < sb + (part.bpm - sb) *
        ((bar : ℝ) / ((part.num_bars : ℕ) : ℝ)) ^ (0.52 : ℝ) := by
      nlinarith
    have hn : (0 : ℝ) < (part.sigNum : ℝ) := by exact_mod_cast hnum
    have hd : (0 : ℝ) < (part.sigDen : ℝ) := by exact_mod_cast hden
    have hbpb : 0 < part.get_beats_per_bar := by
      rw [SongPart.get_beats_per_bar]
      positivity
    exact div_pos (by positivity) hcb
  · exact Finset.nonempty_range_iff.mpr hbars.ne'

/-- Row A of the scenario: 4/4, 120 BPM, 8 bars, instant. -/
def rowA : SongStructure.Row := ⟨"A", 4, 4, 120, 8, "instant", "red"⟩

/-- Row B of the scenario: 4/4, 140 BPM, 4 bars, gradual from 120. -/
def rowB : SongStructure.Row := ⟨"B", 4, 4, 140, 4, "gradual", "green"⟩

/-- Row C of the scenario: 3/4, 100 BPM, 2 bars, instant. -/
def rowC : SongStructure.Row := ⟨"C", 3, 4, 100, 2, "instant", "blue"⟩

/-- Part B's computed duration (the code's gradual formula from 120 BPM). -/
noncomputable def durB : ℝ :=
  SongStructure.calculate_gradual_transition_duration
    ⟨"B", 4, 4, 140, 4, "gradual", "green", 16, 0⟩ 120

theorem durB_pos : 0 < durB :=
  calculate_gradual_pos _ 120 (by norm_num) (by norm_num) (by norm_num)
    (by norm_num) (by norm_num)

/-- Part A as the loader computes it. -/
noncomputable def partA : SongPart := ⟨"A", 4, 4, 120, 8, "instant", "red", 0, 16⟩

/-- Part B as the loader computes it. -/
noncomputable def partB : SongPart :=
  ⟨"B", 4, 4, 140, 4, "gradual", "green", 16, durB⟩

/-- Part C as the loader computes it. -/
noncomputable def partC : SongPart :=
  ⟨"C", 3, 4, 100, 2, "instant", "blue", 16 + durB, 3.6⟩

/-- The scenario's song structure. -/
noncomputable def scABC : SongStructure := ⟨[partA, partB, partC], 120⟩

theorem loadABC :
    SongStructure.load_rows [rowA, rowB, rowC] = some [partA, partB, partC] := by
  rw [SongStructure.load_rows]
  simp only [SongStructure.loadRowsAux, SongStructure.calculate_part_duration,
    rowA, rowB, rowC, partA, partB, partC, durB,
    SongStructure.calculate_gradual_transition_duration,
    SongPart.get_beats_per_bar]
  norm_num
  rw [if_neg gradual_ne_instant]

theorem notContainsA_16 : ¬ SongStructure.containsTime 16 partA := by
  intro h
  have h2 := h.2
  rw [show partA.start_time + partA.duration = 16 by
    show (0 : ℝ) + 16 = 16; ring] at h2
  exact lt_irrefl _ h2

theorem containsB_16 : SongStructure.containsTime 16 partB := by
  constructor
  · show (16 : ℝ) ≤ 16
    exact le_refl _
  · show (16 : ℝ) < 16 + durB
    linarith [durB_pos]

theorem bpm_at_16 : SongStructure.get_bpm_at_time scABC 16 = 120 := by
  have hidx : SongStructure.get_part_at_time scABC 16 = some 1 := by
    rw [SongStructure.get_part_at_time]
    show SongStructure.findPartIdx 16 [partA, partB, partC] 0 = some 1
    simp only [SongStructure.findPartIdx, notContainsA_16, containsB_16,
      if_true, if_false, ite_true, ite_false]
  rw [SongStructure.get_bpm_at_time, hidx]
  show (120 : ℝ) + ((140 : ℝ) - 120) *
      (min 1 (max 0 (((16 : ℝ) - 16) / durB))) ^ (0.52 : ℝ) = 120
  rw [show ((16 : ℝ) - 16) = 0 by ring, zero_div]
  rw [show max (0 : ℝ) 0 = 0 by norm_num, show min (1 : ℝ) 0 = 0 by norm_num]
  rw [Real.zero_rpow (by norm_num : (0.52 : ℝ) ≠ 0)]
  ring

theorem notContainsA_endB : ¬ SongStructure.containsTime (16 + durB) partA := by
  intro h
  have h2 := h.2
  rw [show partA.start_time + partA.duration = 16 by
    show (0 : ℝ) + 16 = 16; ring] at h2
  linarith [durB_pos]

theorem notContainsB_endB : ¬ SongStructure.containsTime (16 + durB) partB := by
  intro h
  have h2 := h.2
  rw [show partB.start_time + partB.duration = 16 + durB from rfl] at h2
  exact lt_irrefl _ h2

theorem containsC_endB : SongStructure.containsTime (16 + durB) partC := by
  constructor
  · show (16 : ℝ) + durB ≤ 16 + durB
    exact le_refl _
  · show (16 : ℝ) + durB < 16 + durB + 3.6
    linarith

theorem bpm_at_endB : SongStructure.get_bpm_at_time scABC (16 + durB) = 100 := by
  have hidx : SongStructure.get_part_at_time scABC (16 + durB) = some 2 := by
    rw [SongStructure.get_part_at_time]
    show SongStructure.findPartIdx (16 + durB) [partA, partB, partC] 0 = some 2
    simp only [SongStructure.findPartIdx, notContainsA_endB, notContainsB_endB,
      containsC_endB, if_true, if_false, ite_true, ite_false]
  rw [SongStructure.get_bpm_at_time, hidx]
  rfl

/-- Claim C2 fails on its last conjunct: in the A/B/C scenario the instant
`16 + B.duration` is the start of part C, so `bpm_at` returns part C's BPM
(100), not 140; the parts here are exactly what the loader computes
(`loadABC`). -/
theorem c2_counterexample_bpm_at_end_of_B :
    SongStructure.load_rows [rowA, rowB, rowC] = some [partA, partB, partC] ∧
      partB.duration = durB ∧
        SongStructure.get_bpm_at_time scABC (16 + durB) ≠ 140 := by
  refine ⟨loadABC, rfl, ?_⟩
  rw [bpm_at_endB]
  norm_num

/-- Claim C2, amended: in the A/B/C scenario, A's computed duration is
16 s, C's is 3.6 s, `bpm_at(16.0)` is 120 (the start of B's ramp), and
`bpm_at(16.0 + B.duration)` is 100 — part C's BPM, because that instant
already belongs to part C; the ramp reaches 140 only strictly inside B. -/
theorem c2_tempo_map_scenario :
    SongStructure.load_rows [rowA, rowB, rowC] = some [partA, partB, partC] ∧
      partA.duration = 16 ∧
        partC.duration = 3.6 ∧
          SongStructure.get_bpm_at_time scABC 16 = 120 ∧
            SongStructure.get_bpm_at_time scABC (16 + durB) = 100 :=
  ⟨loadABC, rfl, rfl, bpm_at_16, bpm_at_endB⟩

/-! ### Claim C3: BPM queries beyond the end of the song -/

/-- The spec's layout invariant on the part list: parts are contiguous from
a given start, with nonnegative durations (`load_from_csv` establishes it
with start 0). -/
def contiguousFrom : ℝ → List SongPart → Prop
  | _, [] => True
  | t0, p :: rest =>
      p.start_time = t0 ∧ 0 ≤ p.duration ∧
        contiguousFrom (p.start_time + p.duration) rest

/-- Total duration of a part list, as a sum of durations. -/
noncomputable def sumDur (ps : List SongPart) : ℝ :=
  (ps.map SongPart.duration).sum

theorem sumDur_nonneg (ps : List SongPart) (t0 : ℝ)
    (h : contiguousFrom t0 ps) : 0 ≤ sumDur ps := by
  induction ps generalizing t0 with
  | nil => simp [sumDur]
  | cons p rest ih =>
      obtain ⟨-, hd, hrest⟩ := h
      have := ih _ hrest
      simp only [sumDur, List.map_cons, List.sum_cons]
      have h2 : (0 : ℝ) ≤ (rest.map SongPart.duration).sum := this
      linarith

theorem contiguous_getLast (ps : List SongPart) (t0 : ℝ)
    (h : contiguousFrom t0 ps) (hne : ps ≠ []) :
    (ps.getLast hne).start_time + (ps.getLast hne).duration =
      t0 + sumDur ps := by
  induction ps generalizing t0 with
  | nil => exact absurd rfl hne
  | cons p rest ih =>
      obtain ⟨hstart, _, hrest⟩ := h
      by_cases hr : rest = []
      · subst hr
        simp only [List.getLast_singleton, sumDur, List.map_cons,
          List.map_nil, List.sum_cons, List.sum_nil]
        rw [hstart]
        ring
      · rw [List.getLast_cons hr, ih _ hrest hr, hstart]
        simp only [sumDur, List.map_cons, List.sum_cons]
        ring

theorem findPartIdx_none_of_ge (t : ℝ) (ps : List SongPart) (t0 : ℝ) (i : ℕ)
    (h : contiguousFrom t0 ps) (ht : t0 + sumDur ps ≤ t) :
    SongStructure.findPartIdx t ps i = none := by
  induction ps generalizing t0 i with
  | nil => rfl
  | cons p rest ih =>
      obtain ⟨hstart, hd, hrest⟩ := h
      have hsum : 0 ≤ sumDur rest := sumDur_nonneg rest _ hrest
      have hsplit : sumDur (p :: rest) = p.duration + sumDur rest := by
        simp [sumDur]
      have hnc : ¬ SongStructure.containsTime t p := by
        intro hc
        have h2 := hc.2
        rw [hstart] at h2
        rw [hsplit] at ht
        linarith
      rw [SongStructure.findPartIdx, if_neg hnc]
      apply ih _ _ hrest
      rw [hsplit] at ht
      rw [hstart]
      linarith

/-- Claim C3 fails on the code: for a one-part structure (4/4, 100 BPM,
1 bar, instant; duration 2.4 s), querying the BPM at the total duration
returns the `default_bpm` 120, not the last part's BPM 100. -/
theorem c3_counterexample_default_bpm_beyond_end :
    SongStructure.get_total_duration
        ⟨[⟨"P", 4, 4, 100, 1, "instant", "red", 0, 2.4⟩], 120⟩ = 2.4 ∧
      SongStructure.get_bpm_at_time
          ⟨[⟨"P", 4, 4, 100, 1, "instant", "red", 0, 2.4⟩], 120⟩ 2.4 = 120 ∧
        (120 : ℝ) ≠ 100 := by
  refine ⟨?_, ?_, by norm_num⟩
  · show (0 : ℝ) + 2.4 = 2.4
    ring
  · have hnc : ¬ SongStructure.containsTime 2.4
        ⟨"P", 4, 4, 100, 1, "instant", "red", 0, 2.4⟩ := by
      intro hc
      have h2 := hc.2
      norm_num at h2
    have hidx : SongStructure.get_part_at_time
        ⟨[⟨"P", 4, 4, 100, 1, "instant", "red", 0, 2.4⟩], 120⟩ 2.4 = none := by
      rw [SongStructure.get_part_at_time]
      show SongStructure.findPartIdx 2.4
        [⟨"P", 4, 4, 100, 1, "instant", "red", 0, 2.4⟩] 0 = none
      simp only [SongStructure.findPartIdx, hnc, if_false, ite_false]
    rw [SongStructure.get_bpm_at_time, hidx]

/-- Claim C3, amended: for every structure whose parts are laid out
contiguously from 0 with nonnegative durations, and every time `t` at or
beyond the total duration, `get_bpm_at_time` returns the structure's
`default_bpm` — not the last part's BPM. -/
theorem c3_bpm_beyond_end_is_default (sc : SongStructure) (t : ℝ)
    (hc : contiguousFrom 0 sc.parts)
    (ht : SongStructure.get_total_duration sc ≤ t) :
    SongStructure.get_bpm_at_time sc t = sc.default_bpm := by
  have hsum : 0 + sumDur sc.parts ≤ t := by
    cases hps : sc.parts with
    | nil =>
        have ht2 : (0 : ℝ) ≤ t := by
          rw [SongStructure.get_total_duration, hps] at ht
          exact ht
        simp only [sumDur, List.map_nil, List.sum_nil]
        linarith
    | cons p rest =>
        have hne : sc.parts ≠ [] := by rw [hps]; simp
        have hlast := contiguous_getLast sc.parts 0 hc hne
        rw [SongStructure.get_total_duration,
          List.getLast?_eq_getLast sc.parts hne] at ht
        have ht2 : (sc.parts.getLast hne).start_time +
            (sc.parts.getLast hne).duration ≤ t := ht
        rw [hlast] at ht2
        rw [← hps]
        exact ht2
  have hidx : SongStructure.get_part_at_time sc t = none := by
    rw [SongStructure.get_part_at_time]
    exact findPartIdx_none_of_ge t sc.parts 0 0 hc hsum
  rw [SongStructure.get_bpm_at_time, hidx]

/-- Concrete instance of `c3_bpm_beyond_end_is_default`: the one-part
structure queried at `t = 3 ≥ 2.4`. -/
theorem c3_bpm_beyond_end_is_default_witness :
    SongStructure.get_bpm_at_time
        ⟨[⟨"P", 4, 4, 100, 1, "instant", "red", 0, 2.4⟩], 120⟩ 3 = 120 :=
  c3_bpm_beyond_end_is_default
    ⟨[⟨"P", 4, 4, 100, 1, "instant", "red", 0, 2.4⟩], 120⟩ 3
    (by refine ⟨rfl, by norm_num, trivial⟩)
    (by show (0 : ℝ) + 2.4 ≤ 3; norm_num)

/-! ### Claim C1: note-on / note-off pairing across transport operations -/

/-- Does a message carry NOTE ON for `(ch, n)` (any velocity)?  `ch` is the
0-indexed wire channel. -/
def isNoteOnMsg (ch n : ℕ) : Msg → Bool
  | [s, nn, _] => decide (s = 0x90 + ch ∧ nn = n)
  | _ => false

/-- Does a message carry the NOTE OFF `[0x80|ch, n, 0]`? -/
def isNoteOffMsg (ch n : ℕ) (m : Msg) : Bool :=
  decide (m = [0x80 + ch, n, 0])

/-- Number of NOTE ON messages for `(ch, n)` in a trace. -/
def countOn (ch n : ℕ) (tr : List Msg) : ℕ := tr.countP (isNoteOnMsg ch n)

/-- Number of NOTE OFF messages for `(ch, n)` in a trace. -/
def countOff (ch n : ℕ) (tr : List Msg) : ℕ := tr.countP (isNoteOffMsg ch n)

/-- Key list of an association list. -/
def keysOf (l : List ((ℕ × ℕ) × ℕ)) : List (ℕ × ℕ) := l.map Prod.fst

/-- 1 when `(ch, n)` is tracked active, else 0. -/
def activeInd (ch n : ℕ) (s : MidiOutputEngine.State) : ℕ :=
  if (dictLookup s.active_notes (ch, n)).isSome then 1 else 0

theorem countP_snoc (p : Msg → Bool) (tr : List Msg) (m : Msg) :
    (tr ++ [m]).countP p = tr.countP p + (if p m then 1 else 0) := by
  rw [List.countP_append]
  simp [List.countP_cons]

theorem dictLookup_isSome_iff (l : List ((ℕ × ℕ) × ℕ)) (k : ℕ × ℕ) :
    (dictLookup l k).isSome ↔ k ∈ keysOf l := by
  induction l with
  | nil => simp [dictLookup, keysOf]
  | cons e rest ih =>
      obtain ⟨k', v⟩ := e
      by_cases h : k' = k
      · simp [dictLookup, h, keysOf]
      · simp only [dictLookup, if_neg h, keysOf, List.map_cons, List.mem_cons]
        rw [ih]
        simp [keysOf, eq_comm, h, Ne.symm h]

theorem keysOf_dictInsert_mem (l : List ((ℕ × ℕ) × ℕ)) (k : ℕ × ℕ) (v : ℕ)
    (a : ℕ × ℕ) :
    a ∈ keysOf (dictInsert l k v) ↔ a ∈ keysOf l ∨ a = k := by
  induction l with
  | nil => simp [dictInsert, keysOf]
  | cons e rest ih =>
      obtain ⟨k', v'⟩ := e
      by_cases h : k' = k
      · subst h
        simp [dictInsert, keysOf]
        tauto
      · simp only [dictInsert, if_neg h, keysOf, List.map_cons,
          List.mem_cons]
        have ih' := ih
        simp only [keysOf] at ih'
        rw [ih']
        tauto

theorem keysOf_dictInsert_nodup (l : List ((ℕ × ℕ) × ℕ)) (k : ℕ × ℕ) (v : ℕ)
    (h : (keysOf l).Nodup) : (keysOf (dictInsert l k v)).Nodup := by
  induction l with
  | nil => simp [dictInsert, keysOf]
  | cons e rest ih =>
      obtain ⟨k', v'⟩ := e
      simp only [keysOf, List.map_cons, List.nodup_cons] at h
      by_cases hk : k' = k
      · subst hk
        simp only [dictInsert, keysOf] at h ⊢
        simp only [eq_self_iff_true, if_true]
        simp only [List.map_cons, List.nodup_cons]
        exact h
      · simp only [dictInsert, if_neg hk, keysOf, List.map_cons,
          List.nodup_cons]
        constructor
        · intro hmem
          rw [show (dictInsert rest k v).map Prod.fst =
              keysOf (dictInsert rest k v) from rfl,
            keysOf_dictInsert_mem] at hmem
          rcases hmem with hm | rfl
          · exact h.1 hm
          · exact hk rfl
        · exact ih h.2

theorem dictLookup_dictInsert_self (l : List ((ℕ × ℕ) × ℕ)) (k : ℕ × ℕ)
    (v : ℕ) : dictLookup (dictInsert l k v) k = some v := by
  induction l with
  | nil => simp [dictInsert, dictLookup]
  | cons e rest ih =>
      obtain ⟨k', v'⟩ := e
      by_cases h : k' = k
      · subst h
        simp [dictInsert, dictLookup]
      · simp [dictInsert, h, dictLookup, ih]

theorem dictLookup_dictInsert_ne (l : List ((ℕ × ℕ) × ℕ)) (k k' : ℕ × ℕ)
    (v : ℕ) (h : k' ≠ k) :
    dictLookup (dictInsert l k v) k' = dictLookup l k' := by
  induction l with
  | nil => simp [dictInsert, dictLookup, Ne.symm h]
  | cons e rest ih =>
      obtain ⟨ke, ve⟩ := e
      by_cases he : ke = k
      · subst he
        simp [dictInsert, dictLookup, Ne.symm h]
      · by_cases he' : ke = k'
        · subst he'
          simp [dictInsert, he, dictLookup]
        · simp [dictInsert, he, dictLookup, he', ih]

theorem keysOf_dictErase_sublist (l : List ((ℕ × ℕ) × ℕ)) (k : ℕ × ℕ) :
    (keysOf (dictErase l k)).Sublist (keysOf l) := by
  induction l with
  | nil => simp [dictErase, keysOf]
  | cons e rest ih =>
      obtain ⟨k', v'⟩ := e
      by_cases h : k' = k
      · simp only [dictErase, if_pos h, keysOf, List.map_cons]
        exact List.sublist_cons_of_sublist _ (List.Sublist.refl _)
      · simp only [dictErase, if_neg h, keysOf, List.map_cons]
        exact List.Sublist.cons₂ _ ih

theorem dictLookup_dictErase_self (l : List ((ℕ × ℕ) × ℕ)) (k : ℕ × ℕ)
    (h : (keysOf l).Nodup) : dictLookup (dictErase l k) k = none := by
  induction l with
  | nil => simp [dictErase, dictLookup]
  | cons e rest ih =>
      obtain ⟨k', v'⟩ := e
      simp only [keysOf, List.map_cons, List.nodup_cons] at h
      by_cases hk : k' = k
      · subst hk
        simp only [dictErase, if_pos rfl]
        have hns : ¬ (dictLookup rest k').isSome := by
          rw [dictLookup_isSome_iff]
          exact h.1
        exact Option.not_isSome_iff_eq_none.mp hns
      · simp only [dictErase, if_neg hk, dictLookup]
        exact ih h.2

theorem dictLookup_dictErase_ne (l : List ((ℕ × ℕ) × ℕ)) (k k' : ℕ × ℕ)
    (h : k' ≠ k) :
    dictLookup (dictErase l k) k' = dictLookup l k' := by
  induction l with
  | nil => simp [dictErase, dictLookup]
  | cons e rest ih =>
      obtain ⟨ke, ve⟩ := e
      by_cases he : ke = k
      · subst he
        simp [dictErase, dictLookup, Ne.symm h]
      · by_cases he' : ke = k'
        · subst he'
          simp [dictErase, he, dictLookup]
        · simp [dictErase, he, dictLookup, he', ih]

theorem clampChannel_le (c : ℕ) : MidiOutputEngine.clampChannel c ≤ 15 := by
  simp [MidiOutputEngine.clampChannel]

theorem countOn_snoc (ch n : ℕ) (tr : List Msg) (m : Msg) :
    countOn ch n (tr ++ [m]) =
      countOn ch n tr + (if isNoteOnMsg ch n m then 1 else 0) :=
  countP_snoc _ tr m

theorem countOff_snoc (ch n : ℕ) (tr : List Msg) (m : Msg) :
    countOff ch n (tr ++ [m]) =
      countOff ch n tr + (if isNoteOffMsg ch n m then 1 else 0) :=
  countP_snoc _ tr m

theorem isNoteOnMsg_noteOn (ch n mc v1 v2 : ℕ) :
    isNoteOnMsg ch n [0x90 + mc, v1, v2] = true ↔ mc = ch ∧ v1 = n := by
  simp only [isNoteOnMsg, decide_eq_true_eq]
  omega

theorem isNoteOffMsg_noteOff (ch n mc v1 : ℕ) :
    isNoteOffMsg ch n [0x80 + mc, v1, 0] = true ↔ mc = ch ∧ v1 = n := by
  simp only [isNoteOffMsg, decide_eq_true_eq, List.cons.injEq, and_true]
  omega

theorem isNoteOffMsg_of_noteOn {ch : ℕ} (hch : ch ≤ 15) (n mc v1 v2 : ℕ) :
    isNoteOffMsg ch n [0x90 + mc, v1, v2] = false := by
  simp only [isNoteOffMsg, decide_eq_false_iff_not, List.cons.injEq]
  omega

theorem isNoteOnMsg_of_noteOff {mc : ℕ} (hmc : mc ≤ 15) (ch n v1 : ℕ) :
    isNoteOnMsg ch n [0x80 + mc, v1, 0] = false := by
  simp only [isNoteOnMsg, decide_eq_false_iff_not]
  omega

theorem isNoteOnMsg_of_cc {ch : ℕ} (hch : ch ≤ 15) (n mc a b : ℕ) :
    isNoteOnMsg ch n [0xB0 + mc, a, b] = false := by
  simp only [isNoteOnMsg, decide_eq_false_iff_not]
  omega

theorem isNoteOffMsg_of_cc {ch : ℕ} (hch : ch ≤ 15) (n mc a b : ℕ) :
    isNoteOffMsg ch n [0xB0 + mc, a, b] = false := by
  simp only [isNoteOffMsg, decide_eq_false_iff_not, List.cons.injEq]
  omega

theorem isNoteOnMsg_of_pc (ch n mc a : ℕ) :
    isNoteOnMsg ch n [0xC0 + mc, a] = false := rfl

theorem isNoteOffMsg_of_pc (ch n mc a : ℕ) :
    isNoteOffMsg ch n [0xC0 + mc, a] = false := by
  simp [isNoteOffMsg]

/-- The counting invariant carried along every trace: active-note keys are
distinct and on real channels, and for every `(ch, n)` the number of NOTE
OFF messages sent so far, plus one if the note is still tracked active,
never exceeds the number of NOTE ON messages sent. -/
def NoteInv (s : MidiOutputEngine.State) (tr : List Msg) : Prop :=
  (keysOf s.active_notes).Nodup ∧
    (∀ k ∈ keysOf s.active_notes, k.1 ≤ 15) ∧
      ∀ ch n : ℕ, ch ≤ 15 →
        countOff ch n tr + activeInd ch n s ≤ countOn ch n tr

theorem NoteInv_process_block_start (s : MidiOutputEngine.State)
    (b : MidiBlock) (c : ℕ) (tr : List Msg) (h : NoteInv s tr) :
    NoteInv (MidiOutputEngine.process_block_start s b c).1
      (tr ++ (MidiOutputEngine.process_block_start s b c).2) := by
  obtain ⟨hnd, hk15, hcount⟩ := h
  rw [MidiOutputEngine.process_block_start]
  by_cases htrig : b.idB ∈ s.triggered_blocks
  · simp only [if_pos htrig, List.append_nil]
    exact ⟨hnd, hk15, hcount⟩
  · simp only [if_neg htrig]
    have hmc15 : MidiOutputEngine.clampChannel c ≤ 15 := clampChannel_le c
    cases hbt : b.message_type with
    | NOTE_ON =>
        refine ⟨keysOf_dictInsert_nodup _ _ _ hnd, ?_, ?_⟩
        · intro k hkmem
          rw [show keysOf (dictInsert s.active_notes
              (MidiOutputEngine.clampChannel c, b.value1) b.idB) =
              keysOf (dictInsert s.active_notes
                (MidiOutputEngine.clampChannel c, b.value1) b.idB) from rfl,
            keysOf_dictInsert_mem] at hkmem
          rcases hkmem with hm | rfl
          · exact hk15 _ hm
          · exact hmc15
        · intro ch n hch
          rw [countOn_snoc, countOff_snoc,
            isNoteOffMsg_of_noteOn hch n (MidiOutputEngine.clampChannel c)
              b.value1 b.value2]
          simp only [Bool.false_eq_true, if_false, add_zero]
          have hco := hcount ch n hch
          by_cases hmn : MidiOutputEngine.clampChannel c = ch ∧ b.value1 = n
          · have hone : isNoteOnMsg ch n [0x90 + MidiOutputEngine.clampChannel c,
                b.value1, b.value2] = true := (isNoteOnMsg_noteOn _ _ _ _ _).mpr hmn
            rw [hone]
            simp only [if_true, ite_true]
            have hkey : ((ch : ℕ), n) =
                (MidiOutputEngine.clampChannel c, b.value1) :=
              Prod.ext (hmn.1.symm) (hmn.2.symm)
            have hind : activeInd ch n
                ⟨insert b.idB s.triggered_blocks,
                  dictInsert s.active_notes
                    (MidiOutputEngine.clampChannel c, b.value1) b.idB⟩ = 1 := by
              simp only [activeInd, hkey, dictLookup_dictInsert_self,
                Option.isSome_some, if_true, ite_true]
            rw [hind]
            omega
          · have hzero : isNoteOnMsg ch n [0x90 + MidiOutputEngine.clampChannel c,
                b.value1, b.value2] = false := by
              rw [← Bool.not_eq_true, isNoteOnMsg_noteOn]
              exact hmn
            rw [hzero]
            simp only [Bool.false_eq_true, if_false, add_zero]
            have hne : ((ch : ℕ), n) ≠
                (MidiOutputEngine.clampChannel c, b.value1) := by
              intro hc
              rw [Prod.mk.injEq] at hc
              exact hmn ⟨hc.1.symm, hc.2.symm⟩
            have hind : activeInd ch n
                ⟨insert b.idB s.triggered_blocks,
                  dictInsert s.active_notes
                    (MidiOutputEngine.clampChannel c, b.value1) b.idB⟩ =
                activeInd ch n s := by
              simp only [activeInd, dictLookup_dictInsert_ne _ _ _ _ hne]
            rw [hind]
            exact hco
    | PROGRAM_CHANGE =>
        refine ⟨hnd, hk15, ?_⟩
        intro ch n hch
        rw [countOn_snoc, countOff_snoc, isNoteOnMsg_of_pc, isNoteOffMsg_of_pc]
        simp only [Bool.false_eq_true, if_false, add_zero]
        have hind : activeInd ch n
            ⟨insert b.idB s.triggered_blocks, s.active_notes⟩ =
            activeInd ch n s := rfl
        rw [hind]
        exact hcount ch n hch
    | CONTROL_CHANGE =>
        refine ⟨hnd, hk15, ?_⟩
        intro ch n hch
        rw [countOn_snoc, countOff_snoc,
          isNoteOnMsg_of_cc hch n _ b.value1 b.value2,
          isNoteOffMsg_of_cc hch n _ b.value1 b.value2]
        simp only [Bool.false_eq_true, if_false, add_zero]
        exact hcount ch n hch
    | NOTE_OFF =>
        refine ⟨hnd, hk15, ?_⟩
        intro ch n hch
        simp only [List.append_nil]
        exact hcount ch n hch
    | KEMPER_RIG_CHANGE =>
        refine ⟨hnd, hk15, ?_⟩
        intro ch n hch
        rw [show ([[0xB0 + MidiOutputEngine.clampChannel c, 47, b.value1],
            [0xB0 + MidiOutputEngine.clampChannel c, 49 + b.value2, 1]] :
              List Msg) =
          [[0xB0 + MidiOutputEngine.clampChannel c, 47, b.value1]] ++
            [[0xB0 + MidiOutputEngine.clampChannel c, 49 + b.value2, 1]]
          from rfl, ← List.append_assoc]
        rw [countOn_snoc, countOff_snoc, countOn_snoc, countOff_snoc,
          isNoteOnMsg_of_cc hch n _ 47 b.value1,
          isNoteOffMsg_of_cc hch n _ 47 b.value1,
          isNoteOnMsg_of_cc hch n _ (49 + b.value2) 1,
          isNoteOffMsg_of_cc hch n _ (49 + b.value2) 1]
        simp only [Bool.false_eq_true, if_false, add_zero]
        exact hcount ch n hch
    | VOICELIVE3_PRESET =>
        refine ⟨hnd, hk15, ?_⟩
        intro ch n hch
        rw [show ([[0xB0 + MidiOutputEngine.clampChannel c, 32, b.value1],
            [0xC0 + MidiOutputEngine.clampChannel c, b.value2]] : List Msg) =
          [[0xB0 + MidiOutputEngine.clampChannel c, 32, b.value1]] ++
            [[0xC0 + MidiOutputEngine.clampChannel c, b.value2]] from rfl,
          ← List.append_assoc]
        rw [countOn_snoc, countOff_snoc, countOn_snoc, countOff_snoc,
          isNoteOnMsg_of_cc hch n _ 32 b.value1,
          isNoteOffMsg_of_cc hch n _ 32 b.value1,
          isNoteOnMsg_of_pc, isNoteOffMsg_of_pc]
        simp only [Bool.false_eq_true, if_false, add_zero]
        exact hcount ch n hch
    | QUAD_CORTEX_PRESET =>
        refine ⟨hnd, hk15, ?_⟩
        intro ch n hch
        rw [show ([[0xB0 + MidiOutputEngine.clampChannel c, 0, b.value1],
            [0xC0 + MidiOutputEngine.clampChannel c, b.value2],
            [0xB0 + MidiOutputEngine.clampChannel c, 43, b.value3]] :
              List Msg) =
          ([[0xB0 + MidiOutputEngine.clampChannel c, 0, b.value1]] ++
            [[0xC0 + MidiOutputEngine.clampChannel c, b.value2]]) ++
              [[0xB0 + MidiOutputEngine.clampChannel c, 43, b.value3]]
          from rfl, ← List.append_assoc, ← List.append_assoc]
        rw [countOn_snoc, countOff_snoc, countOn_snoc, countOff_snoc,
          countOn_snoc, countOff_snoc,
          isNoteOnMsg_of_cc hch n _ 0 b.value1,
          isNoteOffMsg_of_cc hch n _ 0 b.value1,
          isNoteOnMsg_of_pc, isNoteOffMsg_of_pc,
          isNoteOnMsg_of_cc hch n _ 43 b.value3,
          isNoteOffMsg_of_cc hch n _ 43 b.value3]
        simp only [Bool.false_eq_true, if_false, add_zero]
        exact hcount ch n hch

theorem NoteInv_process_block_end (s : MidiOutputEngine.State)
    (b : MidiBlock) (c : ℕ) (tr : List Msg) (h : NoteInv s tr) :
    NoteInv (MidiOutputEngine.process_block_end s b c).1
      (tr ++ (MidiOutputEngine.process_block_end s b c).2) := by
  obtain ⟨hnd, hk15, hcount⟩ := h
  rw [MidiOutputEngine.process_block_end]
  by_cases hbt : b.message_type ≠ MidiMessageType.NOTE_ON
  · simp only [if_pos hbt, List.append_nil]
    exact ⟨hnd, hk15, hcount⟩
  · simp only [if_neg hbt]
    have hmc15 : MidiOutputEngine.clampChannel c ≤ 15 := clampChannel_le c
    cases hlk : dictLookup s.active_notes
        (MidiOutputEngine.clampChannel c, b.value1) with
    | none =>
        simp only [hlk, List.append_nil]
        exact ⟨hnd, hk15, hcount⟩
    | some bid =>
        simp only [hlk]
        refine ⟨hnd.sublist (keysOf_dictErase_sublist _ _), ?_, ?_⟩
        · intro k hkmem
          exact hk15 _ ((keysOf_dictErase_sublist _ _).subset hkmem)
        · intro ch n hch
          rw [countOn_snoc, countOff_snoc,
            isNoteOnMsg_of_noteOff hmc15 ch n b.value1]
          simp only [Bool.false_eq_true, if_false, add_zero]
          have hco := hcount ch n hch
          by_cases hmn : MidiOutputEngine.clampChannel c = ch ∧ b.value1 = n
          · have hoff : isNoteOffMsg ch n
                [0x80 + MidiOutputEngine.clampChannel c, b.value1, 0] = true :=
              (isNoteOffMsg_noteOff _ _ _ _).mpr hmn
            rw [hoff]
            simp only [if_true, ite_true]
            have hkey : ((ch : ℕ), n) =
                (MidiOutputEngine.clampChannel c, b.value1) :=
              Prod.ext (hmn.1.symm) (hmn.2.symm)
            have hindnew : activeInd ch n
                ⟨s.triggered_blocks, dictErase s.active_notes
                  (MidiOutputEngine.clampChannel c, b.value1)⟩ = 0 := by
              simp only [activeInd, hkey, dictLookup_dictErase_self _ _ hnd]
              simp
            have hindold : activeInd ch n s = 1 := by
              simp only [activeInd, hkey, hlk]
              simp
            rw [hindnew]
            rw [hindold] at hco
            omega
          · have hoff : isNoteOffMsg ch n
                [0x80 + MidiOutputEngine.clampChannel c, b.value1, 0] = false := by
              rw [← Bool.not_eq_true, isNoteOffMsg_noteOff]
              exact hmn
            rw [hoff]
            simp only [Bool.false_eq_true, if_false, add_zero]
            have hne : ((ch : ℕ), n) ≠
                (MidiOutputEngine.clampChannel c, b.value1) := by
              intro hc
              rw [Prod.mk.injEq] at hc
              exact hmn ⟨hc.1.symm, hc.2.symm⟩
            have hind : activeInd ch n
                ⟨s.triggered_blocks, dictErase s.active_notes
                  (MidiOutputEngine.clampChannel c, b.value1)⟩ =
                activeInd ch n s := by
              simp only [activeInd, dictLookup_dictErase_ne _ _ _ hne]
            rw [hind]
            exact hco

theorem countP_key_eq (l : List ((ℕ × ℕ) × ℕ)) (k : ℕ × ℕ)
    (hnd : (keysOf l).Nodup) :
    l.countP (fun e => decide (e.1 = k)) = if k ∈ keysOf l then 1 else 0 := by
  induction l with
  | nil => simp [keysOf]
  | cons e rest ih =>
      obtain ⟨ke, ve⟩ := e
      simp only [keysOf, List.map_cons, List.nodup_cons] at hnd
      rw [List.countP_cons]
      by_cases hk : ke = k
      · subst hk
        have h0 : rest.countP (fun e => decide (e.1 = ke)) = 0 := by
          rw [List.countP_eq_zero]
          intro a ha hc
          rw [decide_eq_true_eq] at hc
          exact hnd.1 (hc ▸ List.mem_map_of_mem Prod.fst ha)
        simp [h0, keysOf]
      · rw [ih hnd.2]
        simp only [keysOf, List.map_cons, List.mem_cons]
        simp [hk]
        simp only [eq_false (Ne.symm hk), false_or]

theorem NoteInv_reset_playback (s : MidiOutputEngine.State) (tr : List Msg)
    (h : NoteInv s tr) :
    NoteInv (MidiOutputEngine.reset_playback s).1
      (tr ++ (MidiOutputEngine.reset_playback s).2) := by
  obtain ⟨hnd, hk15, hcount⟩ := h
  refine ⟨by simp [MidiOutputEngine.reset_playback, MidiOutputEngine.initState,
      keysOf], by simp [MidiOutputEngine.reset_playback,
      MidiOutputEngine.initState, keysOf], ?_⟩
  intro ch n hch
  have hind0 : activeInd ch n (MidiOutputEngine.reset_playback s).1 = 0 := by
    simp [MidiOutputEngine.reset_playback, MidiOutputEngine.initState,
      activeInd, dictLookup]
  rw [hind0, add_zero]
  rw [show (MidiOutputEngine.reset_playback s).2 =
      s.active_notes.map (fun e => [0x80 + e.1.1, e.1.2, 0]) from rfl]
  rw [countOn, countOff, List.countP_append, List.countP_append,
    List.countP_map, List.countP_map]
  have hOn : s.active_notes.countP
      ((isNoteOnMsg ch n) ∘ (fun e => [0x80 + e.1.1, e.1.2, 0])) = 0 := by
    rw [List.countP_eq_zero]
    intro e he hc
    have hmc : e.1.1 ≤ 15 := hk15 _ (List.mem_map_of_mem Prod.fst he)
    rw [Function.comp_apply, isNoteOnMsg_of_noteOff hmc ch n e.1.2] at hc
    exact Bool.false_ne_true hc
  have hOff : s.active_notes.countP
      ((isNoteOffMsg ch n) ∘ (fun e => [0x80 + e.1.1, e.1.2, 0])) =
      activeInd ch n s := by
    have heq : ∀ e : (ℕ × ℕ) × ℕ,
        ((isNoteOffMsg ch n) ∘ (fun e => [0x80 + e.1.1, e.1.2, 0])) e =
          (fun e : (ℕ × ℕ) × ℕ => decide (e.1 = (ch, n))) e := by
      intro e
      rw [Function.comp_apply, isNoteOffMsg]
      rw [decide_eq_decide]
      rcases e with ⟨⟨a, b⟩, v⟩
      simp only [List.cons.injEq, and_true, Prod.mk.injEq]
      omega
    rw [List.countP_congr (fun e _ => by rw [heq e])]
    rw [countP_key_eq _ _ hnd]
    rw [activeInd]
    by_cases hm : ((ch : ℕ), n) ∈ keysOf s.active_notes
    · rw [if_pos hm, if_pos ((dictLookup_isSome_iff _ _).mpr hm)]
    · rw [if_neg hm, if_neg (fun hc => hm ((dictLookup_isSome_iff _ _).mp hc))]
  rw [hOn, hOff, add_zero]
  have := hcount ch n hch
  rw [countOn, countOff] at this
  omega

theorem NoteInv_startPhase (channel : ℕ)
    (acc : PlaybackEngine.State × List Msg) (block : MidiBlock)
    (tr0 : List Msg) (h : NoteInv acc.1.midiOut (tr0 ++ acc.2)) :
    NoteInv (PlaybackEngine.processBlockStartPhase channel acc block).1.midiOut
      (tr0 ++ (PlaybackEngine.processBlockStartPhase channel acc block).2) := by
  rw [PlaybackEngine.processBlockStartPhase]
  by_cases h1 : block.start_time ≤ acc.1.current_position ∧
      acc.1.current_position < block.start_time + block.duration
  · by_cases h2 : block.idB ∉ acc.1.triggered_midi_blocks
    · simp only [if_pos h1, if_pos h2]
      rw [← List.append_assoc]
      exact NoteInv_process_block_start _ _ _ _ h
    · simp only [if_pos h1, if_neg h2]
      exact h
  · simp only [if_neg h1]
    exact h

theorem NoteInv_endPhase (channel : ℕ)
    (acc : PlaybackEngine.State × List Msg) (block : MidiBlock)
    (tr0 : List Msg) (h : NoteInv acc.1.midiOut (tr0 ++ acc.2)) :
    NoteInv (PlaybackEngine.processBlockEndPhase channel acc block).1.midiOut
      (tr0 ++ (PlaybackEngine.processBlockEndPhase channel acc block).2) := by
  rw [PlaybackEngine.processBlockEndPhase]
  by_cases h1 : acc.1.current_position ≥ block.start_time + block.duration ∧
      block.idB ∉ acc.1.ended_midi_blocks
  · simp only [if_pos h1]
    rw [← List.append_assoc]
    exact NoteInv_process_block_end _ _ _ _ h
  · simp only [if_neg h1]
    exact h

theorem NoteInv_processBlock (channel : ℕ)
    (acc : PlaybackEngine.State × List Msg) (block : MidiBlock)
    (tr0 : List Msg) (h : NoteInv acc.1.midiOut (tr0 ++ acc.2)) :
    NoteInv (PlaybackEngine.processBlock channel acc block).1.midiOut
      (tr0 ++ (PlaybackEngine.processBlock channel acc block).2) :=
  NoteInv_endPhase channel _ block tr0
    (NoteInv_startPhase channel acc block tr0 h)

theorem NoteInv_foldl_blocks (channel : ℕ) (blocks : List MidiBlock) :
    ∀ (acc : PlaybackEngine.State × List Msg) (tr0 : List Msg),
      NoteInv acc.1.midiOut (tr0 ++ acc.2) →
        NoteInv (blocks.foldl (PlaybackEngine.processBlock channel)
            acc).1.midiOut
          (tr0 ++ (blocks.foldl (PlaybackEngine.processBlock channel)
            acc).2) := by
  induction blocks with
  | nil => intro acc tr0 h; exact h
  | cons b rest ih =>
      intro acc tr0 h
      rw [List.foldl_cons]
      exact ih _ tr0 (NoteInv_processBlock channel acc b tr0 h)

theorem NoteInv_process_midi_lane (acc : PlaybackEngine.State × List Msg)
    (lane : MidiLane) (tr0 : List Msg)
    (h : NoteInv acc.1.midiOut (tr0 ++ acc.2)) :
    NoteInv (PlaybackEngine.process_midi_lane acc lane).1.midiOut
      (tr0 ++ (PlaybackEngine.process_midi_lane acc lane).2) := by
  rw [PlaybackEngine.process_midi_lane]
  by_cases hm : lane.muted
  · simp only [hm, if_true, ite_true]
    exact h
  · simp only [hm, Bool.false_eq_true, if_false, ite_false]
    exact NoteInv_foldl_blocks _ _ acc tr0 h

theorem NoteInv_foldl_lanes (b : Bool) (lanes : List MidiLane) :
    ∀ (acc : PlaybackEngine.State × List Msg) (tr0 : List Msg),
      NoteInv acc.1.midiOut (tr0 ++ acc.2) →
        NoteInv ((lanes.foldl (fun acc lane =>
            if b ∧ ¬lane.solo then acc
            else PlaybackEngine.process_midi_lane acc lane) acc)).1.midiOut
          (tr0 ++ ((lanes.foldl (fun acc lane =>
            if b ∧ ¬lane.solo then acc
            else PlaybackEngine.process_midi_lane acc lane) acc)).2) := by
  induction lanes with
  | nil => intro acc tr0 h; exact h
  | cons lane rest ih =>
      intro acc tr0 h
      rw [List.foldl_cons]
      by_cases hs : b ∧ ¬lane.solo
      · simp only [if_pos hs]
        exact ih acc tr0 h
      · simp only [if_neg hs]
        exact ih _ tr0 (NoteInv_process_midi_lane acc lane tr0 h)

theorem NoteInv_process_lane_events (lanes : List MidiLane)
    (s : PlaybackEngine.State) (tr0 : List Msg)
    (h : NoteInv s.midiOut tr0) :
    NoteInv (PlaybackEngine.process_lane_events lanes s).1.midiOut
      (tr0 ++ (PlaybackEngine.process_lane_events lanes s).2) := by
  rw [PlaybackEngine.process_lane_events]
  exact NoteInv_foldl_lanes (lanes.any (·.solo)) lanes (s, []) tr0
    (by simpa using h)

theorem NoteInv_step (lanes : List MidiLane) (op : PlaybackEngine.Op)
    (s : PlaybackEngine.State) (tr0 : List Msg)
    (h : NoteInv s.midiOut tr0) :
    NoteInv (PlaybackEngine.step lanes op s).1.midiOut
      (tr0 ++ (PlaybackEngine.step lanes op s).2) := by
  cases op with
  | play =>
      rw [PlaybackEngine.step, PlaybackEngine.play]
      by_cases hp : s.is_playing
      · simp only [hp, if_true, ite_true, List.append_nil]
        exact h
      · simp only [hp, Bool.false_eq_true, if_false, ite_false,
          List.append_nil]
        exact h
  | halt =>
      rw [PlaybackEngine.step, PlaybackEngine.halt]
      by_cases hp : s.is_playing
      · simp only [hp, if_true, ite_true, List.append_nil]
        exact h
      · simp only [hp, Bool.false_eq_true, if_false, ite_false,
          List.append_nil]
        exact h
  | seek p =>
      rw [PlaybackEngine.step, PlaybackEngine.set_position]
      exact NoteInv_reset_playback s.midiOut tr0 h
  | stop =>
      rw [PlaybackEngine.step, PlaybackEngine.stop, PlaybackEngine.set_position]
      rw [← List.append_assoc]
      have h1 := NoteInv_reset_playback s.midiOut tr0 h
      exact NoteInv_reset_playback _ _ h1
  | tick adv =>
      rw [PlaybackEngine.step, PlaybackEngine.update_playback]
      by_cases hp : s.is_playing
      · simp only [hp, if_true, ite_true]
        exact NoteInv_process_lane_events lanes _ tr0 h
      · simp only [hp, Bool.false_eq_true, if_false, ite_false,
          List.append_nil]
        exact h

theorem NoteInv_runOps (lanes : List MidiLane) (ops : List PlaybackEngine.Op) :
    ∀ (s : PlaybackEngine.State) (tr0 : List Msg), NoteInv s.midiOut tr0 →
      NoteInv (PlaybackEngine.runOps lanes ops s).1.midiOut
        (tr0 ++ (PlaybackEngine.runOps lanes ops s).2) := by
  induction ops with
  | nil =>
      intro s tr0 h
      simp only [PlaybackEngine.runOps, List.append_nil]
      exact h
  | cons op rest ih =>
      intro s tr0 h
      rw [PlaybackEngine.runOps]
      have h1 := NoteInv_step lanes op s tr0 h
      have h2 := ih _ _ h1
      simpa [List.append_assoc] using h2

/-- Claim C1, amended: across every sequence of play/halt/stop/seek/tick
operations from the initial state, for every real channel `ch ≤ 15` and
note `n`, the number of NOTE OFF messages sent never exceeds the number of
NOTE ON messages sent — each NOTE ON gets at most one matching NOTE OFF —
and a block-end NOTE OFF is emitted only while `(channel, note)` is still
in the active-notes map.  The original "exactly one by the end tick" fails
when a second NOTE ON block reuses the same `(channel, note)` while the
first note is active (see the counterexample), because the active-note
entry is overwritten and only one NOTE OFF is ever sent. -/
theorem c1_note_off_at_most_one_per_note_on :
    (∀ (lanes : List MidiLane) (ops : List PlaybackEngine.Op) (ch n : ℕ),
      ch ≤ 15 →
        countOff ch n (PlaybackEngine.runOps lanes ops
            PlaybackEngine.initState).2 ≤
          countOn ch n (PlaybackEngine.runOps lanes ops
            PlaybackEngine.initState).2) ∧
      ∀ (s : MidiOutputEngine.State) (b : MidiBlock) (c : ℕ),
        (MidiOutputEngine.process_block_end s b c).2 ≠ [] →
          (dictLookup s.active_notes
            (MidiOutputEngine.clampChannel c, b.value1)).isSome = true := by
  constructor
  · intro lanes ops ch n hch
    have hinit : NoteInv PlaybackEngine.initState.midiOut [] := by
      refine ⟨?_, ?_, ?_⟩
      · simp [PlaybackEngine.initState, MidiOutputEngine.initState, keysOf]
      · simp [PlaybackEngine.initState, MidiOutputEngine.initState, keysOf]
      · intro ch' n' _
        simp [countOn, countOff, activeInd, PlaybackEngine.initState,
          MidiOutputEngine.initState, dictLookup]
    have h := NoteInv_runOps lanes ops _ [] hinit
    simp only [List.nil_append] at h
    have hc := h.2.2 ch n hch
    omega
  · intro s b c hne
    rw [MidiOutputEngine.process_block_end] at hne
    by_cases hbt : b.message_type ≠ MidiMessageType.NOTE_ON
    · rw [if_pos hbt] at hne
      exact absurd rfl hne
    · rw [if_neg hbt] at hne
      cases hlk : dictLookup s.active_notes
          (MidiOutputEngine.clampChannel c, b.value1) with
      | none => simp [hlk] at hne
      | some v => rfl

/-- Concrete instance of `c1_note_off_at_most_one_per_note_on`: a play
followed by one tick on an empty lane list, channel 0 / note 60; and a
block end on an engine whose active map holds `(0, 60)`. -/
theorem c1_note_off_at_most_one_per_note_on_witness :
    (countOff 0 60 (PlaybackEngine.runOps []
        [PlaybackEngine.Op.play, PlaybackEngine.Op.tick 1]
        PlaybackEngine.initState).2 ≤
      countOn 0 60 (PlaybackEngine.runOps []
        [PlaybackEngine.Op.play, PlaybackEngine.Op.tick 1]
        PlaybackEngine.initState).2) ∧
      (dictLookup (MidiOutputEngine.State.mk ∅ [((0, 60), 5)]).active_notes
        (MidiOutputEngine.clampChannel 1,
          (MidiBlock.mk 5 0 1 MidiMessageType.NOTE_ON 60 100 0).value1)).isSome
        = true :=
  ⟨c1_note_off_at_most_one_per_note_on.1 []
      [PlaybackEngine.Op.play, PlaybackEngine.Op.tick 1] 0 60 (by norm_num),
    c1_note_off_at_most_one_per_note_on.2
      (MidiOutputEngine.State.mk ∅ [((0, 60), 5)])
      (MidiBlock.mk 5 0 1 MidiMessageType.NOTE_ON 60 100 0) 1
      (by
        rw [MidiOutputEngine.process_block_end]
        norm_num [MidiOutputEngine.clampChannel, dictLookup])⟩

/-- Block A of the C1 counterexample: note 60 on for ten seconds. -/
def cexBlockA : MidiBlock := ⟨0, 0, 10, MidiMessageType.NOTE_ON, 60, 100, 0⟩

/-- Block B of the C1 counterexample: the same note 60, from 2 s to 3 s,
overlapping block A. -/
def cexBlockB : MidiBlock := ⟨1, 2, 1, MidiMessageType.NOTE_ON, 60, 90, 0⟩

/-- The C1 counterexample lane on MIDI channel 1. -/
def cexLane : MidiLane := ⟨false, false, 1, [cexBlockA, cexBlockB]⟩

/-- The C1 counterexample run: play, then ten 1-second ticks. -/
def cexOps : List PlaybackEngine.Op :=
  PlaybackEngine.Op.play :: List.replicate 10 (PlaybackEngine.Op.tick 1)

/-- Claim C1 fails on the code: with two overlapping NOTE ON blocks on the
same `(channel, note)`, the run dispatches two NOTE ONs but sends only one
NOTE OFF in total, even though the final position (10) has passed both
block ends — block A's NOTE ON never gets a matching NOTE OFF, because
block B overwrote the active-note entry and block B's end consumed it. -/
theorem c1_counterexample_overlapping_notes :
    (PlaybackEngine.runOps [cexLane] cexOps PlaybackEngine.initState).2 =
      [[0x90, 60, 100], [0x90, 60, 90], [0x80, 60, 0]] ∧
      countOn 0 60 (PlaybackEngine.runOps [cexLane] cexOps
        PlaybackEngine.initState).2 = 2 ∧
      countOff 0 60 (PlaybackEngine.runOps [cexLane] cexOps
        PlaybackEngine.initState).2 = 1 ∧
      (PlaybackEngine.runOps [cexLane] cexOps
        PlaybackEngine.initState).1.current_position = 10 ∧
      cexBlockA.start_time + cexBlockA.duration ≤ 10 ∧
      cexBlockB.start_time + cexBlockB.duration ≤ 10 := by
  have htrace : (PlaybackEngine.runOps [cexLane] cexOps
      PlaybackEngine.initState).2 =
        [[0x90, 60, 100], [0x90, 60, 90], [0x80, 60, 0]] ∧
      (PlaybackEngine.runOps [cexLane] cexOps
        PlaybackEngine.initState).1.current_position = 10 := by
    norm_num [cexOps, cexLane, cexBlockA, cexBlockB, List.replicate,
      PlaybackEngine.runOps, PlaybackEngine.step, PlaybackEngine.play,
      PlaybackEngine.update_playback, PlaybackEngine.process_lane_events,
      PlaybackEngine.process_midi_lane, PlaybackEngine.processBlock,
      PlaybackEngine.processBlockStartPhase,
      PlaybackEngine.processBlockEndPhase,
      PlaybackEngine.initState, MidiOutputEngine.initState,
      MidiOutputEngine.process_block_start,
      MidiOutputEngine.process_block_end,
      MidiOutputEngine.clampChannel, dictInsert, dictLookup, dictErase]
  refine ⟨htrace.1, ?_, ?_, htrace.2, ?_, ?_⟩
  · rw [htrace.1]
    decide
  · rw [htrace.1]
    decide
  · show (0 : ℚ) + 10 ≤ 10
    norm_num
  · show (2 : ℚ) + 1 ≤ 10
    norm_num

/-! ### Claim C10: zero-duration blocks -/

/-- A lane holding exactly one block of duration 0 (the configuration
claim C10 is about). -/
def c10Lane (c bid : ℕ) (st : ℚ) (mt : MidiMessageType) (v1 v2 v3 : ℕ) :
    MidiLane :=
  ⟨false, false, c, [⟨bid, st, 0, mt, v1, v2, v3⟩]⟩

theorem c10_startPhase_skip (c : ℕ) (b : MidiBlock) (hd : b.duration = 0)
    (acc : PlaybackEngine.State × List Msg) :
    PlaybackEngine.processBlockStartPhase c acc b = acc := by
  have hcond : ¬(b.start_time ≤ acc.1.current_position ∧
      acc.1.current_position < b.start_time + b.duration) := by
    rintro ⟨h1, h2⟩
    rw [hd, add_zero] at h2
    exact absurd h1 (not_le.mpr h2)
  rw [PlaybackEngine.processBlockStartPhase, if_neg hcond]

theorem c10_pbe_empty_active (s : MidiOutputEngine.State) (b : MidiBlock)
    (c : ℕ) (h : s.active_notes = []) :
    MidiOutputEngine.process_block_end s b c = (s, []) := by
  rw [MidiOutputEngine.process_block_end]
  by_cases hbt : b.message_type ≠ MidiMessageType.NOTE_ON
  · rw [if_pos hbt]
  · rw [if_neg hbt]
    simp [h, dictLookup]

theorem c10_tick_eq (c bid v1 v2 v3 : ℕ) (st : ℚ) (mt : MidiMessageType)
    (s : PlaybackEngine.State) (adv : ℚ) (hplay : s.is_playing = true) :
    PlaybackEngine.step [c10Lane c bid st mt v1 v2 v3]
        (PlaybackEngine.Op.tick adv) s =
      PlaybackEngine.processBlockEndPhase c
        ({ s with current_position := s.current_position + adv }, [])
        ⟨bid, st, 0, mt, v1, v2, v3⟩ := by
  rw [PlaybackEngine.step, PlaybackEngine.update_playback, if_pos hplay,
    PlaybackEngine.process_lane_events]
  simp only [c10Lane, List.any_cons, List.any_nil, Bool.or_false,
    List.foldl_cons, List.foldl_nil]
  rw [if_neg (by simp)]
  rw [PlaybackEngine.process_midi_lane]
  simp only [Bool.false_eq_true, if_false, ite_false]
  rw [List.foldl_cons, List.foldl_nil, PlaybackEngine.processBlock,
    c10_startPhase_skip c _ rfl]

theorem c10_step_aux (c bid v1 v2 v3 : ℕ) (st : ℚ) (mt : MidiMessageType)
    (op : PlaybackEngine.Op) (s : PlaybackEngine.State)
    (ha : s.midiOut.active_notes = []) (ht : bid ∉ s.triggered_midi_blocks) :
    (PlaybackEngine.step [c10Lane c bid st mt v1 v2 v3] op s).2 = [] ∧
      (PlaybackEngine.step [c10Lane c bid st mt v1 v2 v3]
        op s).1.midiOut.active_notes = [] ∧
        bid ∉ (PlaybackEngine.step [c10Lane c bid st mt v1 v2 v3]
          op s).1.triggered_midi_blocks := by
  cases op with
  | play =>
      rw [PlaybackEngine.step, PlaybackEngine.play]
      by_cases hp : s.is_playing
      · rw [if_pos hp]
        exact ⟨rfl, ha, ht⟩
      · rw [if_neg hp]
        exact ⟨rfl, ha, ht⟩
  | halt =>
      rw [PlaybackEngine.step, PlaybackEngine.halt]
      by_cases hp : s.is_playing
      · rw [if_pos hp]
        exact ⟨rfl, ha, ht⟩
      · rw [if_neg hp]
        exact ⟨rfl, ha, ht⟩
  | seek p =>
      rw [PlaybackEngine.step, PlaybackEngine.set_position,
        MidiOutputEngine.reset_playback]
      rw [ha]
      exact ⟨rfl, rfl, by simp⟩
  | stop =>
      rw [PlaybackEngine.step, PlaybackEngine.stop, PlaybackEngine.set_position,
        MidiOutputEngine.reset_playback, MidiOutputEngine.reset_playback]
      rw [ha]
      refine ⟨?_, rfl, by simp⟩
      simp [MidiOutputEngine.initState]
  | tick adv =>
      by_cases hp : s.is_playing
      · rw [c10_tick_eq c bid v1 v2 v3 st mt s adv hp,
          PlaybackEngine.processBlockEndPhase]
        by_cases hcond : ({ s with current_position :=
              s.current_position + adv } :
            PlaybackEngine.State).current_position ≥ st + 0 ∧
            bid ∉ ({ s with current_position := s.current_position + adv } :
              PlaybackEngine.State).ended_midi_blocks
        · rw [if_pos hcond]
          rw [c10_pbe_empty_active _ _ _ ha]
          exact ⟨rfl, ha, ht⟩
        · rw [if_neg hcond]
          exact ⟨rfl, ha, ht⟩
      · rw [PlaybackEngine.step, PlaybackEngine.update_playback, if_neg hp]
        exact ⟨rfl, ha, ht⟩

theorem c10_runOps_aux (c bid v1 v2 v3 : ℕ) (st : ℚ) (mt : MidiMessageType)
    (ops : List PlaybackEngine.Op) :
    ∀ s : PlaybackEngine.State, s.midiOut.active_notes = [] →
      bid ∉ s.triggered_midi_blocks →
        (PlaybackEngine.runOps [c10Lane c bid st mt v1 v2 v3] ops s).2 = [] ∧
          bid ∉ (PlaybackEngine.runOps [c10Lane c bid st mt v1 v2 v3]
            ops s).1.triggered_midi_blocks := by
  induction ops with
  | nil =>
      intro s ha ht
      exact ⟨rfl, ht⟩
  | cons op rest ih =>
      intro s ha ht
      obtain ⟨hmsgs, ha', ht'⟩ := c10_step_aux c bid v1 v2 v3 st mt op s ha ht
      rw [PlaybackEngine.runOps]
      obtain ⟨hrest, htr⟩ := ih _ ha' ht'
      refine ⟨?_, htr⟩
      rw [hmsgs, hrest]
      rfl

/-- Claim C10: a zero-duration block alone on a lane never has its start
dispatched (the condition `start <= position < start` is unsatisfiable)
and the whole system emits no MIDI messages under any operation sequence;
its end dispatch fires at any tick reaching `position >= start_time` while
playing — hence at the first such tick — and once the block is in the
ended set a tick neither re-fires it nor emits anything. -/
theorem c10_zero_duration_block (c bid v1 v2 v3 : ℕ) (st : ℚ)
    (mt : MidiMessageType) :
    (∀ ops : List PlaybackEngine.Op,
      (PlaybackEngine.runOps [c10Lane c bid st mt v1 v2 v3] ops
          PlaybackEngine.initState).2 = [] ∧
        bid ∉ (PlaybackEngine.runOps [c10Lane c bid st mt v1 v2 v3] ops
          PlaybackEngine.initState).1.triggered_midi_blocks) ∧
      (∀ (s : PlaybackEngine.State) (adv : ℚ), s.is_playing = true →
        st ≤ s.current_position + adv →
          bid ∈ (PlaybackEngine.step [c10Lane c bid st mt v1 v2 v3]
            (PlaybackEngine.Op.tick adv) s).1.ended_midi_blocks) ∧
        ∀ (s : PlaybackEngine.State) (adv : ℚ), s.is_playing = true →
          bid ∈ s.ended_midi_blocks →
            (PlaybackEngine.step [c10Lane c bid st mt v1 v2 v3]
              (PlaybackEngine.Op.tick adv) s).1.ended_midi_blocks =
              s.ended_midi_blocks ∧
              (PlaybackEngine.step [c10Lane c bid st mt v1 v2 v3]
                (PlaybackEngine.Op.tick adv) s).2 = [] := by
  refine ⟨?_, ?_, ?_⟩
  · intro ops
    exact c10_runOps_aux c bid v1 v2 v3 st mt ops PlaybackEngine.initState
      rfl (by simp [PlaybackEngine.initState])
  · intro s adv hplay hpos
    rw [c10_tick_eq c bid v1 v2 v3 st mt s adv hplay,
      PlaybackEngine.processBlockEndPhase]
    by_cases hmem : bid ∈ s.ended_midi_blocks
    · rw [if_neg]
      · exact hmem
      · rintro ⟨-, hnm⟩
        exact hnm hmem
    · rw [if_pos]
      · exact Finset.mem_insert_self bid _
      · refine ⟨?_, hmem⟩
        show st + 0 ≤ s.current_position + adv
        rw [add_zero]
        exact hpos
  · intro s adv hplay hmem
    rw [c10_tick_eq c bid v1 v2 v3 st mt s adv hplay,
      PlaybackEngine.processBlockEndPhase]
    rw [if_neg]
    · exact ⟨rfl, rfl⟩
    · rintro ⟨-, hnm⟩
      exact hnm hmem

/-- Concrete instance of `c10_zero_duration_block`: a NOTE-ON block of
duration 0 at t = 2 on channel 1; a play-then-tick run emits nothing, and
a 5-second tick from position 0 while playing marks the block ended. -/
theorem c10_zero_duration_block_witness :
    ((PlaybackEngine.runOps [c10Lane 1 0 2 MidiMessageType.NOTE_ON 60 100 0]
        [PlaybackEngine.Op.play, PlaybackEngine.Op.tick 3]
        PlaybackEngine.initState).2 = [] ∧
      0 ∉ (PlaybackEngine.runOps [c10Lane 1 0 2 MidiMessageType.NOTE_ON 60 100 0]
        [PlaybackEngine.Op.play, PlaybackEngine.Op.tick 3]
        PlaybackEngine.initState).1.triggered_midi_blocks) ∧
      0 ∈ (PlaybackEngine.step [c10Lane 1 0 2 MidiMessageType.NOTE_ON 60 100 0]
        (PlaybackEngine.Op.tick 5)
        (PlaybackEngine.State.mk 0 true ∅ ∅
          MidiOutputEngine.initState)).1.ended_midi_blocks :=
  ⟨(c10_zero_duration_block 1 0 60 100 0 2 MidiMessageType.NOTE_ON).1
      [PlaybackEngine.Op.play, PlaybackEngine.Op.tick 3],
    (c10_zero_duration_block 1 0 60 100 0 2 MidiMessageType.NOTE_ON).2.1
      (PlaybackEngine.State.mk 0 true ∅ ∅ MidiOutputEngine.initState) 5
      rfl (by norm_num)⟩
